import Mathlib

/-!
Verification development for the layered-repository storage engine
(`pageserver/src/layered_repository.rs`).

The definitions below are a shallow embedding of the Rust source.  LSNs are
modelled as `Nat` (the `u64` width never matters for the properties proved
here except where noted; `u32` block arithmetic is modelled with an explicit
`% 2^32`).  Fallible Rust functions returning `anyhow::Result` are modelled
with `Except String`; a Rust `assert!`/`ensure!`/`bail!` becomes an
`Except.error`.  Code of the repository that lives in modules not present in
the provided slice (`layer_map.rs`, `storage_layer.rs`, `inmemory_layer.rs`,
`filename.rs`, the seqwait primitive) is modelled from the specification's
description of those interfaces; such definitions carry a
`Modelled from the spec:` note in their doc comment.
-/

/-- Log sequence number, a 64-bit WAL position (`Lsn`). -/
abbrev Lsn := Nat

/-- Key of a relation relish: `(spcnode, dbnode, relnode, forknum)`. -/
structure RelTag where
  spcnode : Nat
  dbnode : Nat
  relnode : Nat
  forknum : Nat
deriving DecidableEq

/-- Modelled from the spec: the addressable unit at the database layer is
either a relation, an SLRU segment (blocky), or a non-blocky single-valued
object (`relish.rs` is not part of the provided slice). -/
inductive RelishTag where
  | relation (rel : RelTag)
  | slru (kind : Nat) (segno : Nat)
  | nonBlocky (kind : Nat)
deriving DecidableEq

/-- Modelled from the spec: a relish is blocky (extensible, addressable by
block number) or non-blocky (single-valued). -/
def RelishTag.is_blocky : RelishTag → Bool
  | .relation _ => true
  | .slru _ _ => true
  | .nonBlocky _ => false

/-- Modelled from the spec: only `RelishTag::Relation` values are relations. -/
def RelishTag.is_relation : RelishTag → Bool
  | .relation _ => true
  | _ => false

/-- Modelled from the spec: number of blocks in one segment of a relish
(`RELISH_SEG_SIZE` of `storage_layer.rs`, 10 MiB of 8 KiB pages). -/
def RELISH_SEG_SIZE : Nat := 1280

/-- Page size in bytes (`pg_constants::BLCKSZ`). -/
def BLCKSZ : Nat := 8192

/-- Modelled from the spec: `SegmentTag = (relish, segno)`, the unit of layer
coverage. -/
structure SegmentTag where
  rel : RelishTag
  segno : Nat
deriving DecidableEq

/-- Modelled from the spec: split a block number of a relish into its segment
and the block's index inside the segment
(`block_number = segno * RELISH_SEG_SIZE + seg_blknum`). -/
def SegmentTag.from_blknum (rel : RelishTag) (blknum : Nat) : SegmentTag × Nat :=
  (⟨rel, blknum / RELISH_SEG_SIZE⟩, blknum % RELISH_SEG_SIZE)

/-- Page contents, a byte string. -/
abbrev Bytes := List Nat

/-- The all-zeros 8 KiB page (`ZERO_PAGE`). -/
def ZERO_PAGE : Bytes := List.replicate 8192 0

/-- A WAL record; `will_init` marks records that fully initialize a page
without needing a predecessor image. -/
structure ZenithWalRecord where
  will_init : Bool
  payload : Nat
deriving DecidableEq

/-- Modelled from the spec: a page version is either a full page image or a
WAL record mutating the page (`storage_layer.rs`). -/
inductive PageVersion where
  | page (img : Bytes)
  | wal (rec : ZenithWalRecord)
deriving DecidableEq

/-- Data gathered while walking layers backward: WAL records collected
newest-first, and an optional base image with its LSN
(`PageReconstructData`). -/
structure PageReconstructData where
  records : List (Lsn × ZenithWalRecord)
  page_img : Option (Lsn × Bytes)
deriving DecidableEq

/-- Result of one `get_page_reconstruct_data` call on a layer
(`PageReconstructResult`). -/
inductive PageReconstructResult where
  | complete
  | continueAt (lsn : Lsn)
  | missing (lsn : Lsn)
deriving DecidableEq

/-- Signature of the external WAL-redo executor
(`WalRedoManager::request_redo`): relish, block number, request LSN,
optional base image, records in ascending LSN order. -/
abbrev RedoFn := RelishTag → Nat → Lsn → Option Bytes → List (Lsn × ZenithWalRecord) → Bytes

/-- Embedding of `LayeredTimeline::reconstruct_page`: materialize a page from
the gathered base image and WAL records, handing the work to the WAL-redo
executor when records are present.  The executor is passed as a parameter;
a result that does not mention `request_redo` was produced without invoking
redo.  (The memoization into the external page cache, an out-of-scope
collaborator, is not modelled.) -/
def reconstruct_page (request_redo : RedoFn) (rel : RelishTag) (rel_blknum : Nat)
    (request_lsn : Lsn) (data : PageReconstructData) : Bytes :=
  match data.records.reverse with
  | [] =>
    match data.page_img with
    | some (_, img) => img
    | none => ZERO_PAGE
  | r :: rs =>
    if data.page_img.isNone && !r.2.will_init then
      ZERO_PAGE
    else
      let base_img := data.page_img.map Prod.snd
      request_redo rel rel_blknum request_lsn base_img (r :: rs)

/-! ## Repository timeline-state bookkeeping (claim C10) -/

/-- Sync state of a timeline as exchanged with the remote-storage machinery
(`TimelineSyncState`). -/
inductive TimelineSyncState where
  | ready (disk_consistent_lsn : Lsn)
  | evicted (disk_consistent_lsn : Lsn)
  | awaitsDownload (disk_consistent_lsn : Lsn)
  | cloudOnly (disk_consistent_lsn : Lsn)
deriving DecidableEq

/-- An entry of the repository's in-memory timeline map
(`LayeredTimelineEntry`): a fully loaded local timeline (here reduced to the
`disk_consistent_lsn` its `Arc<LayeredTimeline>` exposes) or a remote stub. -/
inductive LayeredTimelineEntry where
  | localTl (disk_consistent_lsn : Lsn)
  | remoteTl (id : Nat) (disk_consistent_lsn : Lsn)
deriving DecidableEq

/-- Embedding of `LayeredTimelineEntry::local_or_schedule_download`: a local
entry yields its timeline, a remote entry schedules a download (side effect
not modelled) and yields nothing. -/
def LayeredTimelineEntry.local_or_schedule_download :
    LayeredTimelineEntry → Option Lsn
  | .localTl d => some d
  | .remoteTl _ _ => none

/-- Embedding of `LayeredTimelineEntry::disk_consistent_lsn`. -/
def LayeredTimelineEntry.disk_consistent_lsn : LayeredTimelineEntry → Lsn
  | .localTl d => d
  | .remoteTl _ d => d

/-- The repository's `timelines` hash map, as an association list keyed by
timeline id. -/
abbrev TimelineMap := List (Nat × LayeredTimelineEntry)

/-- Lookup in the timeline map (`HashMap::get`). -/
def timelineMapGet (m : TimelineMap) (id : Nat) : Option LayeredTimelineEntry :=
  match m with
  | [] => none
  | (k, v) :: rest => if k = id then some v else timelineMapGet rest id

/-- Insert/overwrite in the timeline map (`HashMap::insert`). -/
def timelineMapInsert (m : TimelineMap) (id : Nat) (e : LayeredTimelineEntry) :
    TimelineMap :=
  match m with
  | [] => [(id, e)]
  | (k, v) :: rest =>
    if k = id then (id, e) :: rest else (k, v) :: timelineMapInsert rest id e

/-- Remove from the timeline map (`HashMap::remove`). -/
def timelineMapRemove (m : TimelineMap) (id : Nat) : TimelineMap :=
  match m with
  | [] => []
  | (k, v) :: rest => if k = id then rest else (k, v) :: timelineMapRemove rest id

/-- Embedding of `LayeredRepository::set_timeline_state`.  The `Ready` arm
reloads the timeline from local files (`init_local_timeline`); that load is
outside this slice's layer machinery, so its outcome (the loaded timeline's
`disk_consistent_lsn`, or a failure) is passed in as `load_result`. -/
def set_timeline_state (load_result : Except String Lsn) (m : TimelineMap)
    (timeline_id : Nat) (new_state : TimelineSyncState) : Except String TimelineMap :=
  match new_state with
  | .ready _ => do
    let d ← load_result
    pure (timelineMapInsert m timeline_id (.localTl d))
  | .evicted _ => pure (timelineMapRemove m timeline_id)
  | .awaitsDownload d => pure (timelineMapInsert m timeline_id (.remoteTl timeline_id d))
  | .cloudOnly d => pure (timelineMapInsert m timeline_id (.remoteTl timeline_id d))

/-- Embedding of `LayeredRepository::get_timeline_state`. -/
def get_timeline_state (m : TimelineMap) (timeline_id : Nat) :
    Option TimelineSyncState :=
  match timelineMapGet m timeline_id with
  | none => none
  | some e =>
    some (if e.local_or_schedule_download.isSome then
            .ready e.disk_consistent_lsn
          else
            .cloudOnly e.disk_consistent_lsn)

/-! ## Timeline metadata and branching (claim C4) -/

/-- Persisted per-timeline metadata (`TimelineMetadata`). -/
structure TimelineMetadata where
  disk_consistent_lsn : Lsn
  prev_record_lsn : Option Lsn
  ancestor_timeline : Option Nat
  ancestor_lsn : Lsn
  latest_gc_cutoff_lsn : Lsn
  initdb_lsn : Lsn
deriving DecidableEq

/-- The fields of a loaded source timeline that `branch_timeline` reads. -/
structure BranchSrcTimeline where
  last_record_lsn : Lsn
  prev_record_lsn : Lsn
  latest_gc_cutoff_lsn : Lsn
  initdb_lsn : Lsn
deriving DecidableEq

/-- A repository as seen by `branch_timeline`: the timeline map (already
loaded source timelines only) and the set of timeline directories and
metadata files created on disk. -/
structure BranchRepo where
  timelines : List (Nat × Option BranchSrcTimeline)
  timeline_dirs : List Nat
  metadata_files : List (Nat × TimelineMetadata)
deriving DecidableEq

/-- Lookup of a timeline entry for branching; `some none` stands for a
remote entry, `none` for an absent one. -/
def branchRepoGet (m : List (Nat × Option BranchSrcTimeline)) (id : Nat) :
    Option (Option BranchSrcTimeline) :=
  match m with
  | [] => none
  | (k, v) :: rest => if k = id then some v else branchRepoGet rest id

/-- Embedding of `LayeredTimeline::check_lsn_is_in_scope`: validate an LSN
against the GC horizon. -/
def check_lsn_is_in_scope (lsn : Lsn) (latest_gc_cutoff_lsn : Lsn) :
    Except String Unit :=
  if latest_gc_cutoff_lsn ≤ lsn then
    Except.ok ()
  else
    Except.error "LSN is earlier than latest GC horizon"

/-- Embedding of `LayeredRepository::branch_timeline`.  Errors carry the
outermost context string the caller would observe.  Loading an absent source
from disk is outside this model, so an absent source is an error. -/
def branch_timeline (repo : BranchRepo) (src : Nat) (dst : Nat) (start_lsn : Lsn) :
    Except String BranchRepo :=
  match branchRepoGet repo.timelines src with
  | none => Except.error "failed to load metadata"
  | some none => Except.error "Cannot branch off the timeline that is not local"
  | some (some src_timeline) =>
    match check_lsn_is_in_scope start_lsn src_timeline.latest_gc_cutoff_lsn with
    | Except.error _ => Except.error "invalid branch start lsn"
    | Except.ok _ =>
      let dst_prev :=
        if src_timeline.last_record_lsn = start_lsn then
          some src_timeline.prev_record_lsn
        else
          none
      let metadata : TimelineMetadata :=
        { disk_consistent_lsn := start_lsn
          prev_record_lsn := dst_prev
          ancestor_timeline := some src
          ancestor_lsn := start_lsn
          latest_gc_cutoff_lsn := src_timeline.latest_gc_cutoff_lsn
          initdb_lsn := src_timeline.initdb_lsn }
      Except.ok
        { repo with
          timeline_dirs := dst :: repo.timeline_dirs
          metadata_files := (dst, metadata) :: repo.metadata_files }

/-! ## Loading the layer map (claim C2) -/

/-- A layer file name as parsed from the timeline directory.  Modelled from
the spec: `filename.rs` is not in the slice; an image file name encodes one
snapshot LSN, a delta file name a `[start_lsn, end_lsn)` range. -/
inductive LayerFileName where
  | imageFile (lsn : Lsn)
  | deltaFile (start_lsn : Lsn) (end_lsn : Lsn)
deriving DecidableEq

/-- One directory entry met while scanning a timeline directory, already
classified the way `load_layer_map` classifies raw file names. -/
inductive TimelineDirEntry where
  | layerFile (f : LayerFileName)
  | metadataFile
  | oldFile
  | ephemeralFile (id : Nat)
  | otherFile (id : Nat)
deriving DecidableEq

/-- Search for the first unused backup number, counting up from `i` with the
given fuel (the `for i in 0u32..` loop of `rename_to_backup`). -/
def first_unused_backup (taken : Nat → Bool) : Nat → Nat → Option Nat
  | 0, _ => none
  | fuel + 1, i => if taken i then first_unused_backup taken fuel (i + 1) else some i

/-- Embedding of `rename_to_backup`: pick the first `N` such that
`<name>.<N>.old` does not exist yet; returns the chosen suffix number.
`backup_exists f n` tells whether the backup file numbered `n` for layer
file `f` already exists. -/
def rename_to_backup (backup_exists : LayerFileName → Nat → Bool)
    (f : LayerFileName) : Except String Nat :=
  match first_unused_backup (backup_exists f) 4294967296 0 with
  | some n => Except.ok n
  | none => Except.error "couldn't find an unused backup number"

/-- Result of `load_layer_map`: layer files inserted into the layer map,
files renamed aside (with the chosen `.N.old` suffix number), ephemeral
files deleted, and the recorded `next_open_layer_at`. -/
structure LoadLayerMapResult where
  inserted : List LayerFileName
  renamed : List (LayerFileName × Nat)
  deleted_ephemeral : List Nat
  next_open_layer_at : Lsn
deriving DecidableEq

/-- Embedding of the directory-scan loop of
`LayeredTimeline::load_layer_map`, processing one entry. -/
def load_layer_map_step (disk_consistent_lsn : Lsn)
    (backup_exists : LayerFileName → Nat → Bool)
    (acc : LoadLayerMapResult) (e : TimelineDirEntry) :
    Except String LoadLayerMapResult :=
  match e with
  | .layerFile (.imageFile lsn) =>
    if lsn > disk_consistent_lsn then do
      let n ← rename_to_backup backup_exists (.imageFile lsn)
      pure { acc with renamed := acc.renamed ++ [(.imageFile lsn, n)] }
    else
      pure { acc with inserted := acc.inserted ++ [.imageFile lsn] }
  | .layerFile (.deltaFile start_lsn end_lsn) =>
    if start_lsn < end_lsn then
      if end_lsn > disk_consistent_lsn + 1 then do
        let n ← rename_to_backup backup_exists (.deltaFile start_lsn end_lsn)
        pure { acc with renamed := acc.renamed ++ [(.deltaFile start_lsn end_lsn, n)] }
      else
        pure { acc with inserted := acc.inserted ++ [.deltaFile start_lsn end_lsn] }
    else
      Except.error "deltafilename.start_lsn < deltafilename.end_lsn"
  | .metadataFile => pure acc
  | .oldFile => pure acc
  | .ephemeralFile id =>
    pure { acc with deleted_ephemeral := acc.deleted_ephemeral ++ [id] }
  | .otherFile _ => pure acc

/-- Embedding of `LayeredTimeline::load_layer_map`: scan the timeline
directory, insert layer files into the map, rename aside files from the
future, delete stale ephemeral files, and set
`next_open_layer_at = disk_consistent_lsn + 1`. -/
def load_layer_map (disk_consistent_lsn : Lsn)
    (backup_exists : LayerFileName → Nat → Bool)
    (entries : List TimelineDirEntry) : Except String LoadLayerMapResult := do
  let acc ← entries.foldlM (load_layer_map_step disk_consistent_lsn backup_exists)
    { inserted := [], renamed := [], deleted_ephemeral := [],
      next_open_layer_at := 0 }
  pure { acc with next_open_layer_at := disk_consistent_lsn + 1 }

/-- Refinement companion for claim C2, following the spec's words: the layer
files that must be kept in place and inserted into the map
(image `lsn ≤ disk_consistent_lsn`, delta `end_lsn ≤ disk_consistent_lsn + 1`). -/
def spec_kept_layer_files (disk_consistent_lsn : Lsn)
    (entries : List TimelineDirEntry) : List LayerFileName :=
  entries.filterMap fun e =>
    match e with
    | .layerFile (.imageFile lsn) =>
      if lsn ≤ disk_consistent_lsn then some (.imageFile lsn) else none
    | .layerFile (.deltaFile s t) =>
      if t ≤ disk_consistent_lsn + 1 then some (.deltaFile s t) else none
    | _ => none

/-- Refinement companion for claim C2, following the spec's words: the layer
files that must be renamed aside as presumed post-crash partial writes
(image `lsn > disk_consistent_lsn`, delta `end_lsn > disk_consistent_lsn + 1`). -/
def spec_future_layer_files (disk_consistent_lsn : Lsn)
    (entries : List TimelineDirEntry) : List LayerFileName :=
  entries.filterMap fun e =>
    match e with
    | .layerFile (.imageFile lsn) =>
      if lsn > disk_consistent_lsn then some (.imageFile lsn) else none
    | .layerFile (.deltaFile s t) =>
      if t > disk_consistent_lsn + 1 then some (.deltaFile s t) else none
    | _ => none

/-! ## Garbage collection of a timeline (claim C1) -/

/-- A historic layer as `gc_timeline` inspects it, via the layer trait's
capability set (modelled from the spec's design note on layer polymorphism;
`storage_layer.rs` and the concrete layer modules are not in the slice). -/
structure GcLayer where
  layer_id : Nat
  start_lsn : Lsn
  end_lsn : Lsn
  is_in_memory : Bool
  is_incremental : Bool
  seg_range : List SegmentTag
  covers_seg : SegmentTag → Bool
  seg_exists : SegmentTag → Lsn → Bool

/-- Modelled from the spec: `get_seg_range().get_singleton()` — the layer's
segment range reduced to a single segment, when it is one. -/
def get_singleton : List SegmentTag → Option SegmentTag
  | [seg] => some seg
  | _ => none

/-- The ancestor-timeline queries issued by the tombstone check of
`gc_timeline` (`get_relish_size` and `get_rel_exists` of the ancestor, at
its `last_record_lsn`); the ancestor's read stack is summarized by these
oracles. -/
structure GcAncestor where
  last_record_lsn : Lsn
  ancestor_relish_size : RelishTag → Lsn → Option Nat
  ancestor_rel_exists : RelishTag → Lsn → Bool

/-- The timeline state `gc_timeline` operates on. -/
structure GcTimelineState where
  historic : List GcLayer
  disk_consistent_lsn : Lsn
  latest_gc_cutoff_lsn : Lsn
  ancestor : Option GcAncestor

/-- Modelled from the spec: `LayerMap::newer_image_layer_exists` — is there a
historic layer covering `seg` with `start_lsn > after_lsn` and
`end_lsn ≤ ceiling`? -/
def newer_image_layer_exists (layers : List GcLayer) (seg : SegmentTag)
    (after_lsn : Lsn) (ceiling : Lsn) : Bool :=
  layers.any fun m =>
    m.covers_seg seg && decide (after_lsn < m.start_lsn) && decide (m.end_lsn ≤ ceiling)

/-- Modelled from the spec: `LayerMap::layer_exists_at_lsn` — does some
historic layer covering `seg` exist at `lsn`? -/
def layer_exists_at_lsn (layers : List GcLayer) (seg : SegmentTag) (lsn : Lsn) :
    Bool :=
  layers.any fun m => m.covers_seg seg && decide (m.start_lsn ≤ lsn)

/-- Embedding of the per-layer decision of the scan loop of
`LayeredTimeline::gc_timeline`: `true` means the layer is pushed onto
`layers_to_remove`, `false` that one of conditions 1–4 keeps it.
`u32` arithmetic of the ancestor size check is modelled with `% 2^32`. -/
def gc_decide_layer (st : GcTimelineState) (retain_lsns : List Lsn) (cutoff : Lsn)
    (l : GcLayer) : Except String Bool :=
  if l.is_in_memory then
    Except.ok false
  else
    match get_singleton l.seg_range with
    | none => Except.ok false
    | some seg =>
      let is_dropped := l.covers_seg seg && !l.seg_exists seg l.end_lsn
      if l.end_lsn > cutoff then
        Except.ok false
      else if retain_lsns.any fun retain_lsn => decide (l.start_lsn ≤ retain_lsn) then
        Except.ok false
      else if !is_dropped
          && !newer_image_layer_exists st.historic seg l.end_lsn st.disk_consistent_lsn then
        Except.ok false
      else if is_dropped then
        match l.start_lsn with
        | 0 => Except.error "checked_sub"
        | prior_lsn + 1 =>
          let is_tombstone := layer_exists_at_lsn st.historic seg prior_lsn
          let is_tombstone :=
            if is_tombstone then
              true
            else
              match st.ancestor with
              | some ancestor =>
                if seg.rel.is_blocky then
                  match ancestor.ancestor_relish_size seg.rel ancestor.last_record_lsn with
                  | some size =>
                    decide (seg.segno ≤ ((size + 4294967295) % 4294967296) / RELISH_SEG_SIZE)
                  | none => false
                else
                  ancestor.ancestor_rel_exists seg.rel ancestor.last_record_lsn
              | none => false
          if is_tombstone then Except.ok false else Except.ok true
      else
        Except.ok true

/-- Embedding of `LayeredTimeline::gc_timeline`: publish the new GC cutoff,
scan historic layers collecting `layers_to_remove`, then delete those from
disk and remove them from the layer map.  Returns the updated state and the
list of deleted layers. -/
def gc_timeline (st : GcTimelineState) (retain_lsns : List Lsn) (cutoff : Lsn) :
    Except String (GcTimelineState × List GcLayer) := do
  let st := { st with latest_gc_cutoff_lsn := cutoff }
  let layers_to_remove ← st.historic.foldlM
    (fun acc l => do
      let doomed ← gc_decide_layer st retain_lsns cutoff l
      pure (if doomed then acc ++ [l] else acc))
    ([] : List GcLayer)
  let doomed_ids := layers_to_remove.map GcLayer.layer_id
  let remaining := st.historic.filter fun l => !doomed_ids.contains l.layer_id
  pure ({ st with historic := remaining }, layers_to_remove)

/-! ## Checkpoint and flush state machine (claims C3, C7, C8) -/

/-- The view of an in-memory layer the checkpoint protocol needs: its start
LSN, the LSN of its oldest buffered record (`get_oldest_lsn`), and the
sealed end LSN once frozen (`get_end_lsn` is only called on frozen layers;
modelled from the spec's in-memory-layer interface). -/
structure CkptInMemLayer where
  layer_id : Nat
  start_lsn : Lsn
  oldest_lsn : Lsn
  end_lsn : Option Lsn
deriving DecidableEq

/-- An on-disk layer file as produced by `write_to_disk`. -/
structure CkptDiskFile where
  file_id : Nat
  start_lsn : Lsn
  end_lsn : Lsn
deriving DecidableEq

/-- Signature of `InMemoryLayer::write_to_disk` (not in the slice): given
the frozen layer and the `reconstruct_pages` flag, produce the new on-disk
delta/image layer files. -/
abbrev WriteToDiskFn := CkptInMemLayer → Bool → List CkptDiskFile

/-- The per-timeline state read and written by the write path, the
checkpointer and the flusher. -/
structure CkptTimelineState where
  last_record_lsn : Lsn
  prev_record_lsn : Lsn
  disk_consistent_lsn : Lsn
  open_layer : Option CkptInMemLayer
  frozen_layer : Option CkptInMemLayer
  next_open_layer_at : Option Lsn
  historic : List CkptDiskFile
  latest_gc_cutoff_lsn : Lsn
  ancestor_timeline : Option Nat
  ancestor_lsn : Lsn
  initdb_lsn : Lsn
  metadata_writes : List TimelineMetadata
  fresh_layer_id : Nat
deriving DecidableEq

/-- Embedding of `LayeredTimeline::flush_frozen_layer`: write the frozen
layer to disk, insert the new historics, and if `end_lsn − 1` advanced the
`disk_consistent_lsn`, persist a new metadata file — including
`prev_record_lsn` exactly when everything up to `last_record_lsn` was
flushed.  The `assert!(disk_consistent_lsn > old_disk_consistent_lsn)` is an
error.  Returns the new state and the layer files created. -/
def flush_frozen_layer (write_to_disk : WriteToDiskFn) (s : CkptTimelineState)
    (frozen_layer : CkptInMemLayer) (reconstruct_pages : Bool) :
    Except String (CkptTimelineState × List CkptDiskFile) :=
  let new_historics := write_to_disk frozen_layer reconstruct_pages
  let s := { s with
    frozen_layer := none
    historic := s.historic ++ new_historics }
  match frozen_layer.end_lsn with
  | none => Except.error "flushed layer was not frozen"
  | some frozen_end_lsn =>
    let disk_consistent_lsn := frozen_end_lsn - 1
    if disk_consistent_lsn ≠ s.disk_consistent_lsn then
      if disk_consistent_lsn ≤ s.disk_consistent_lsn then
        Except.error "assertion failed: disk_consistent_lsn > old_disk_consistent_lsn"
      else
        let ondisk_prev_record_lsn :=
          if disk_consistent_lsn = s.last_record_lsn then
            some s.prev_record_lsn
          else
            none
        let metadata : TimelineMetadata :=
          { disk_consistent_lsn := disk_consistent_lsn
            prev_record_lsn := ondisk_prev_record_lsn
            ancestor_timeline := s.ancestor_timeline
            ancestor_lsn := s.ancestor_lsn
            latest_gc_cutoff_lsn := s.latest_gc_cutoff_lsn
            initdb_lsn := s.initdb_lsn }
        Except.ok
          ({ s with
             disk_consistent_lsn := disk_consistent_lsn
             metadata_writes := metadata :: s.metadata_writes },
           new_historics)
    else
      Except.ok (s, new_historics)

/-- One test of the loop of `checkpoint_internal`: does the loop break here?
It breaks when there is no frozen layer and either there is no open layer or
the open layer's WAL distance is below the checkpoint distance
(`distance < 0 || distance < checkpoint_distance`, computed with
`widening_sub` into a signed value). -/
def ckpt_break_condition (checkpoint_distance : Nat) (s : CkptTimelineState) : Prop :=
  s.frozen_layer = none ∧
    (s.open_layer = none ∨
      ∃ ol, s.open_layer = some ol ∧
        ((s.last_record_lsn : Int) - (ol.oldest_lsn : Int) < 0 ∨
          (s.last_record_lsn : Int) - (ol.oldest_lsn : Int) < (checkpoint_distance : Int)))

instance (checkpoint_distance : Nat) (s : CkptTimelineState) :
    Decidable (ckpt_break_condition checkpoint_distance s) := by
  unfold ckpt_break_condition
  exact inferInstance

/-- The loop body of `checkpoint_internal`, with fuel: flush the frozen
layer if present; otherwise freeze the open layer whose WAL distance exceeds
`checkpoint_distance` (sealing it at `last_record_lsn + 1` and setting
`next_open_layer_at`), or break. -/
def ckpt_loop (write_to_disk : WriteToDiskFn) (checkpoint_distance : Nat)
    (reconstruct_pages : Bool) :
    Nat → CkptTimelineState → List CkptDiskFile →
    Except String (CkptTimelineState × List CkptDiskFile)
  | 0, _, _ => Except.error "checkpoint loop fuel exhausted"
  | fuel + 1, s, created => do
    match s.frozen_layer with
    | some frozen_layer =>
      let (s', new_files) ← flush_frozen_layer write_to_disk s frozen_layer
        reconstruct_pages
      ckpt_loop write_to_disk checkpoint_distance reconstruct_pages fuel s'
        (created ++ new_files)
    | none =>
      match s.open_layer with
      | some open_layer =>
        let distance : Int :=
          (s.last_record_lsn : Int) - (open_layer.oldest_lsn : Int)
        if distance < 0 ∨ distance < (checkpoint_distance : Int) then
          Except.ok (s, created)
        else
          let end_lsn := s.last_record_lsn + 1
          let s' := { s with
            frozen_layer := some { open_layer with end_lsn := some end_lsn }
            open_layer := none
            next_open_layer_at := some end_lsn }
          ckpt_loop write_to_disk checkpoint_distance reconstruct_pages fuel s'
            created
      | none => Except.ok (s, created)

/-- Embedding of `LayeredTimeline::checkpoint_internal`: run the
freeze-and-flush loop to completion (the loop performs at most flush,
freeze, flush, break — fuel 8 is never exhausted), then unload historic
layers (a no-op on this state).  Returns the new state and all layer files
created. -/
def checkpoint_internal (write_to_disk : WriteToDiskFn)
    (checkpoint_distance : Nat) (reconstruct_pages : Bool)
    (s : CkptTimelineState) : Except String (CkptTimelineState × List CkptDiskFile) :=
  ckpt_loop write_to_disk checkpoint_distance reconstruct_pages 8 s []

/-- One operation of a timeline's life as far as the two monotone LSNs are
concerned: a write batch (which, per the write path, requires
`lsn > last_record_lsn` when the open layer is selected and then publishes
the new head via `advance_last_record_lsn`), a checkpoint in any mode, or a
GC pass over this timeline (which publishes a new GC cutoff and removes
garbage-collected historic layers). -/
inductive TimelineOp where
  | opWrite (lsn : Lsn)
  | opCheckpoint (checkpoint_distance : Nat) (reconstruct_pages : Bool)
  | opGc (cutoff : Lsn) (collected : CkptDiskFile → Bool)

/-- The open-layer selection of `get_layer_for_write` on this state: reuse
the open layer (which must not start in the future) or create one at
`next_open_layer_at`. -/
def select_open_layer (s : CkptTimelineState) (lsn : Lsn) :
    Except String CkptTimelineState :=
  match s.open_layer with
  | some open_layer =>
    if lsn < open_layer.start_lsn then
      Except.error "unexpected open layer in the future"
    else
      Except.ok s
  | none =>
    match s.next_open_layer_at with
    | none => Except.error "next_open_layer_at is not set"
    | some start_lsn =>
      Except.ok { s with
        open_layer := some
          { layer_id := s.fresh_layer_id, start_lsn := start_lsn,
            oldest_lsn := lsn, end_lsn := none }
        next_open_layer_at := none
        fresh_layer_id := s.fresh_layer_id + 1 }

/-- Embedding of the write path's effect on this state: `get_layer_for_write`
(asserting an aligned LSN strictly above `last_record_lsn` and opening a new
layer at `next_open_layer_at` when none is open) followed by
`advance_last_record_lsn`. -/
def timeline_write (s : CkptTimelineState) (lsn : Lsn) :
    Except String CkptTimelineState :=
  if lsn % 8 ≠ 0 then
    Except.error "assertion failed: lsn is aligned"
  else if ¬ s.last_record_lsn < lsn then
    Except.error "cannot modify relation after advancing last_record_lsn"
  else
    match select_open_layer s lsn with
    | Except.error e => Except.error e
    | Except.ok s1 =>
      Except.ok { s1 with
        last_record_lsn := lsn
        prev_record_lsn := s1.last_record_lsn }

/-- One step of the timeline state machine. -/
def timeline_step (write_to_disk : WriteToDiskFn) (s : CkptTimelineState) :
    TimelineOp → Except String CkptTimelineState
  | .opWrite lsn => timeline_write s lsn
  | .opCheckpoint checkpoint_distance reconstruct_pages => do
    let (s', _) ← checkpoint_internal write_to_disk checkpoint_distance
      reconstruct_pages s
    pure s'
  | .opGc cutoff collected =>
    Except.ok { s with
      latest_gc_cutoff_lsn := cutoff
      historic := s.historic.filter fun f => !collected f }

/-- Run a sequence of timeline operations. -/
def timeline_run (write_to_disk : WriteToDiskFn) (s : CkptTimelineState) :
    List TimelineOp → Except String CkptTimelineState
  | [] => Except.ok s
  | op :: ops => do
    let s' ← timeline_step write_to_disk s op
    timeline_run write_to_disk s' ops

/-! ## Data path: in-memory layers, layer lookup, reads and writes
(claims C6, C9) -/

/-- Modelled from the spec: one per-segment metadata mutation buffered in an
in-memory layer — an explicit segment size (`put_seg_size`), a creation with
an initial size (`put_creation`), or a drop marker (`drop_segment`). -/
inductive SegMetaOp where
  | segSize (size : Nat)
  | segCreation (size : Nat)
  | segDropped
deriving DecidableEq

/-- Modelled from the spec: the per-segment state an in-memory layer tracks —
the size inherited from the predecessor layer when the segment was
registered (`None` when the segment did not exist before), and the buffered
metadata mutations, newest first. -/
structure SegState where
  inherited_size : Option Nat
  meta : List (Lsn × SegMetaOp)
deriving DecidableEq

/-- Modelled from the spec: an in-memory layer — start LSN, the sealed end
LSN once frozen, the registered segments with their metadata, and the
buffered page versions `(segment, seg_blknum, lsn, page_version)`, newest
first. -/
structure InMemoryLayer where
  start_lsn : Lsn
  end_lsn : Option Lsn
  segs : SegmentTag → Option SegState
  pages : List (SegmentTag × Nat × Lsn × PageVersion)

/-- Modelled from the spec: `InMemoryLayer::covers_seg`. -/
def InMemoryLayer.covers_seg (l : InMemoryLayer) (seg : SegmentTag) : Bool :=
  (l.segs seg).isSome

/-- The newest buffered metadata mutation of a segment at or before `lsn`. -/
def latest_meta_at (meta : List (Lsn × SegMetaOp)) (lsn : Lsn) :
    Option (Lsn × SegMetaOp) :=
  meta.find? fun e => decide (e.1 ≤ lsn)

/-- Modelled from the spec: `InMemoryLayer::get_seg_size` — the segment's
size as of `lsn`: the newest buffered mutation at or before `lsn`, falling
back to the inherited size; `None` on a drop marker or an unknown segment. -/
def InMemoryLayer.get_seg_size (l : InMemoryLayer) (seg : SegmentTag)
    (lsn : Lsn) : Option Nat :=
  match l.segs seg with
  | none => none
  | some st =>
    match latest_meta_at st.meta lsn with
    | some (_, .segSize size) => some size
    | some (_, .segCreation size) => some size
    | some (_, .segDropped) => none
    | none => st.inherited_size

/-- Modelled from the spec: `InMemoryLayer::get_seg_exists` — the segment
exists at `lsn` unless its newest mutation at or before `lsn` is a drop
marker, or it is unknown to the layer and was not inherited. -/
def InMemoryLayer.get_seg_exists (l : InMemoryLayer) (seg : SegmentTag)
    (lsn : Lsn) : Bool :=
  match l.segs seg with
  | none => false
  | some st =>
    match latest_meta_at st.meta lsn with
    | some (_, .segDropped) => false
    | some _ => true
    | none => st.inherited_size.isSome

/-- Walk the buffered page versions of one block, newest first, gathering
reconstruct data (the core of the in-memory layer's
`get_page_reconstruct_data`, modelled from the spec's read-path
description): stop complete on a full image or once at or below an already
cached image's LSN, collect WAL records otherwise. -/
def collect_page_versions (start_lsn : Lsn) :
    List (Lsn × PageVersion) → PageReconstructData →
    PageReconstructResult × PageReconstructData
  | [], data =>
    if data.page_img.isSome then
      (.complete, data)
    else
      (.continueAt start_lsn, data)
  | (vlsn, pv) :: rest, data =>
    match data.page_img with
    | some (cached_lsn, _) =>
      if vlsn ≤ cached_lsn then
        (.complete, data)
      else
        match pv with
        | .page img => (.complete, { data with page_img := some (vlsn, img) })
        | .wal rec =>
          collect_page_versions start_lsn rest
            { data with records := data.records ++ [(vlsn, rec)] }
    | none =>
      match pv with
      | .page img => (.complete, { data with page_img := some (vlsn, img) })
      | .wal rec =>
        collect_page_versions start_lsn rest
          { data with records := data.records ++ [(vlsn, rec)] }

/-- Modelled from the spec: `InMemoryLayer::get_page_reconstruct_data` — walk
the layer's buffered versions of `(seg, seg_blknum)` at or before `lsn`;
when the layer is exhausted without a base image, continue in the
predecessor at this layer's start LSN (the search ends with `Missing` when
the segment was created inside this layer). -/
def InMemoryLayer.get_page_reconstruct_data (l : InMemoryLayer)
    (seg : SegmentTag) (seg_blknum : Nat) (lsn : Lsn)
    (data : PageReconstructData) : PageReconstructResult × PageReconstructData :=
  let versions := l.pages.filterMap fun e =>
    if e.1 = seg ∧ e.2.1 = seg_blknum ∧ e.2.2.1 ≤ lsn then
      some (e.2.2.1, e.2.2.2)
    else
      none
  let inherited :=
    match l.segs seg with
    | some st => st.inherited_size.isSome
    | none => false
  match collect_page_versions l.start_lsn versions data with
  | (.continueAt cont, data') =>
    if inherited then (.continueAt cont, data') else (.missing cont, data')
  | r => r

/-- An on-disk (historic) layer through the layer trait's capability set
(modelled from the spec's design note on layer polymorphism; the concrete
delta/image layer modules are not in the slice). -/
structure DiskLayerOps where
  start_lsn : Lsn
  end_lsn : Lsn
  is_incremental : Bool
  covers_seg : SegmentTag → Bool
  seg_exists : SegmentTag → Lsn → Bool
  seg_size : SegmentTag → Lsn → Option Nat
  reconstruct : SegmentTag → Nat → Lsn → PageReconstructData →
    PageReconstructResult × PageReconstructData

/-- A handle to a layer of either kind, as returned by layer-map lookup
(the `Arc<dyn Layer>` of the source). -/
inductive LayerRef where
  | mem (l : InMemoryLayer)
  | disk (d : DiskLayerOps)

/-- Dispatch of `Layer::get_start_lsn`. -/
def LayerRef.get_start_lsn : LayerRef → Lsn
  | .mem l => l.start_lsn
  | .disk d => d.start_lsn

/-- Dispatch of `Layer::covers_seg`. -/
def LayerRef.covers_seg : LayerRef → SegmentTag → Bool
  | .mem l, seg => l.covers_seg seg
  | .disk d, seg => d.covers_seg seg

/-- Dispatch of `Layer::get_seg_exists`. -/
def LayerRef.get_seg_exists : LayerRef → SegmentTag → Lsn → Bool
  | .mem l, seg, lsn => l.get_seg_exists seg lsn
  | .disk d, seg, lsn => d.seg_exists seg lsn

/-- Dispatch of `Layer::get_seg_size`. -/
def LayerRef.get_seg_size : LayerRef → SegmentTag → Lsn → Option Nat
  | .mem l, seg, lsn => l.get_seg_size seg lsn
  | .disk d, seg, lsn => d.seg_size seg lsn

/-- Dispatch of `Layer::get_page_reconstruct_data`. -/
def LayerRef.get_page_reconstruct_data :
    LayerRef → SegmentTag → Nat → Lsn → PageReconstructData →
    PageReconstructResult × PageReconstructData
  | .mem l, seg, blk, lsn, data => l.get_page_reconstruct_data seg blk lsn data
  | .disk d, seg, blk, lsn, data => d.reconstruct seg blk lsn data

/-- A timeline's layer map (`LayerMap`): the open and frozen in-memory
layers, the historic on-disk layers, and the start LSN for the next open
layer. -/
structure DPLayerMap where
  open_layer : Option InMemoryLayer
  frozen_layer : Option InMemoryLayer
  historic : List DiskLayerOps
  next_open_layer_at : Option Lsn

/-- Pick the newest historic layer covering `(seg, lsn)`: greatest
`start_lsn ≤ lsn`, preferring an image layer on a tie (modelled from the
spec's `LayerMap::get` description). -/
def best_historic_layer (layers : List DiskLayerOps) (seg : SegmentTag)
    (lsn : Lsn) : Option DiskLayerOps :=
  layers.foldl
    (fun best d =>
      if d.covers_seg seg && decide (d.start_lsn ≤ lsn) then
        match best with
        | none => some d
        | some b =>
          if b.start_lsn < d.start_lsn ∨
              (b.start_lsn = d.start_lsn ∧ b.is_incremental ∧ ¬ d.is_incremental) then
            some d
          else
            some b
      else
        best)
    none

/-- Modelled from the spec: `LayerMap::get` — the newest layer covering
`(seg, lsn)`, consulting the open layer, then the frozen layer, then the
historic index. -/
def DPLayerMap.get (lm : DPLayerMap) (seg : SegmentTag) (lsn : Lsn) :
    Option LayerRef :=
  let open_hit : Option LayerRef :=
    match lm.open_layer with
    | some o => if o.covers_seg seg && decide (o.start_lsn ≤ lsn) then
        some (.mem o)
      else
        none
    | none => none
  match open_hit with
  | some r => some r
  | none =>
    let frozen_hit : Option LayerRef :=
      match lm.frozen_layer with
      | some fr => if fr.covers_seg seg && decide (fr.start_lsn ≤ lsn) then
          some (.mem fr)
        else
          none
      | none => none
    match frozen_hit with
    | some r => some r
    | none => (best_historic_layer lm.historic seg lsn).map .disk

/-- One timeline of an ancestor chain as the read path sees it: its layer
map, its `last_record_lsn`, the LSN at which it was branched off the next
frame, and the writer-visible bookkeeping (`current_logical_size` in bytes
and the relish size cache). -/
structure DPFrame where
  layers : DPLayerMap
  last_record_lsn : Lsn
  ancestor_lsn : Lsn
  current_logical_size : Nat
  relish_size_cache : List (RelishTag × Nat)

/-- A timeline with its ancestors: the head frame is the timeline itself,
the tail its ancestor chain (oldest last). -/
abbrev DPTimeline := List DPFrame

/-- The descent loop of `LayeredTimeline::get_layer_for_read`: consult this
timeline's layer map; a found layer whose segment is deleted at `lsn` ends
the search; otherwise hop to the ancestor at `ancestor_lsn` and retry. -/
def get_layer_for_read_descend :
    DPTimeline → SegmentTag → Lsn → Option (LayerRef × Lsn)
  | [], _, _ => none
  | f :: rest, seg, lsn =>
    match f.layers.get seg lsn with
    | some layer =>
      if layer.get_seg_exists seg lsn then some (layer, lsn) else none
    | none => get_layer_for_read_descend rest seg f.ancestor_lsn

/-- Embedding of `LayeredTimeline::get_layer_for_read`: first walk into the
right ancestor while `lsn < ancestor_lsn`, then run the descent loop. -/
def get_layer_for_read :
    DPTimeline → SegmentTag → Lsn → Option (LayerRef × Lsn)
  | [], _, _ => none
  | f :: rest, seg, lsn =>
    if lsn < f.ancestor_lsn then
      get_layer_for_read rest seg lsn
    else
      get_layer_for_read_descend (f :: rest) seg lsn

/-- The segment size the `get_relish_size` loop observes for a segment with
`segno ≥ 1`: the covering layer's reported size, or 0 when no layer covers
the segment (`unwrap_or(0)`). -/
def seg_read_size (tl : DPTimeline) (rel : RelishTag) (lsn : Lsn) (segno : Nat) :
    Nat :=
  match get_layer_for_read tl ⟨rel, segno⟩ lsn with
  | some (layer, lsn2) => (layer.get_seg_size ⟨rel, segno⟩ lsn2).getD 0
  | none => 0

/-- The `while segsize == RELISH_SEG_SIZE` loop of
`LayeredTimeline::get_relish_size`, with fuel (the Rust loop variable is a
`u32` segment number, so `2^32` steps over-approximate any real run). -/
def get_relish_size_loop (tl : DPTimeline) (rel : RelishTag) (lsn : Lsn) :
    Nat → Nat → Nat → Except String (Option Nat)
  | fuel, segno, segsize =>
    if segsize = RELISH_SEG_SIZE then
      match fuel with
      | 0 => Except.error "get_relish_size fuel exhausted"
      | fuel + 1 =>
        get_relish_size_loop tl rel lsn fuel (segno + 1)
          (seg_read_size tl rel lsn (segno + 1))
    else
      Except.ok (some (segno * RELISH_SEG_SIZE + segsize))

/-- Embedding of `LayeredTimeline::get_relish_size`: walk segments from
`segno = 0` while they are full; `None` when the relish is absent or
dropped at `lsn`. -/
def get_relish_size (tl : DPTimeline) (rel : RelishTag) (lsn : Lsn) :
    Except String (Option Nat) :=
  match get_layer_for_read tl ⟨rel, 0⟩ lsn with
  | none => Except.ok none
  | some (layer, lsn0) =>
    match layer.get_seg_size ⟨rel, 0⟩ lsn0 with
    | none => Except.ok none
    | some segsize => get_relish_size_loop tl rel lsn 4294967296 0 segsize

/-- Embedding of `LayeredTimeline::get_rel_exists`: inspect segment 0. -/
def get_rel_exists (tl : DPTimeline) (rel : RelishTag) (lsn : Lsn) : Bool :=
  match get_layer_for_read tl ⟨rel, 0⟩ lsn with
  | some (layer, lsn0) => layer.get_seg_exists ⟨rel, 0⟩ lsn0
  | none => false

/-- A handle on the external materialized-page cache
(`lookup_cached_page` consults it for relations only); out of scope of the
core, so modelled as an oracle returning the newest cached page at or below
the requested LSN. -/
abbrev PageCacheFn := RelTag → Nat → Lsn → Option (Lsn × Bytes)

/-- Embedding of `LayeredTimeline::lookup_cached_page`. -/
def lookup_cached_page (cache : PageCacheFn) (rel : RelishTag)
    (rel_blknum : Nat) (lsn : Lsn) : Option (Lsn × Bytes) :=
  match rel with
  | .relation rel_tag => cache rel_tag rel_blknum lsn
  | _ => none

/-- The gather loop of `LayeredTimeline::materialize_page`, with fuel: call
`get_page_reconstruct_data`, follow `Continue` into the predecessor layer
(failing on a cycle or a missing predecessor), and stop on `Complete`;
`Missing` yields the zero page when nothing was collected (`none`) and an
error otherwise. -/
def materialize_loop (tl : DPTimeline) (seg : SegmentTag) (seg_blknum : Nat) :
    Nat → LayerRef → Lsn → PageReconstructData →
    Except String (Option PageReconstructData)
  | 0, _, _, _ => Except.error "materialize loop fuel exhausted"
  | fuel + 1, layer_ref, curr_lsn, data =>
    match layer_ref.get_page_reconstruct_data seg seg_blknum curr_lsn data with
    | (.complete, data') => Except.ok (some data')
    | (.continueAt cont_lsn, data') =>
      match get_layer_for_read tl seg cont_lsn with
      | some (cont_layer, cont_lsn2) =>
        if cont_lsn2 = curr_lsn then
          Except.error "could not find predecessor, layer returned its own LSN"
        else
          materialize_loop tl seg seg_blknum fuel cont_layer cont_lsn2 data'
      | none => Except.error "could not find predecessor of layer"
    | (.missing _, data') =>
      if data'.records.isEmpty then
        Except.ok none
      else
        Except.error "No base image found for page"

/-- Embedding of `LayeredTimeline::materialize_page`: probe the page cache
(a cached page at exactly the requested LSN is returned directly; a newer
one is a bug), gather reconstruct data across layers, and run
`reconstruct_page`. -/
def materialize_page (tl : DPTimeline) (cache : PageCacheFn)
    (request_redo : RedoFn) (seg : SegmentTag) (seg_blknum : Nat) (lsn : Lsn)
    (layer : LayerRef) : Except String Bytes := do
  let rel := seg.rel
  let rel_blknum := seg.segno * RELISH_SEG_SIZE + seg_blknum
  let cached_page_img ←
    match lookup_cached_page cache rel rel_blknum lsn with
    | some (cached_lsn, cached_img) =>
      if lsn < cached_lsn then
        Except.error "cached page is newer than the request"
      else if cached_lsn = lsn then
        return cached_img
      else
        pure (some (cached_lsn, cached_img))
    | none => pure none
  let data : PageReconstructData := { records := [], page_img := cached_page_img }
  match ← materialize_loop tl seg seg_blknum 4294967296 layer lsn data with
  | none => pure ZERO_PAGE
  | some data' => pure (reconstruct_page request_redo rel rel_blknum lsn data')

/-- Embedding of `LayeredTimeline::get_page_at_lsn`.  The
`debug_assert!(lsn <= self.get_last_record_lsn())` of the source is
compiled out of release builds and does not reject anything, so it has no
counterpart here. -/
def get_page_at_lsn (tl : DPTimeline) (cache : PageCacheFn)
    (request_redo : RedoFn) (rel : RelishTag) (rel_blknum : Nat) (lsn : Lsn) :
    Except String Bytes :=
  if !rel.is_blocky && rel_blknum ≠ 0 then
    Except.error "invalid request for block for non-blocky relish"
  else
    let (seg, seg_blknum) := SegmentTag.from_blknum rel rel_blknum
    match get_layer_for_read tl seg lsn with
    | some (layer, lsn2) =>
      materialize_page tl cache request_redo seg seg_blknum lsn2 layer
    | none =>
      if seg.segno > 0 && get_rel_exists tl rel lsn then
        Except.ok ZERO_PAGE
      else
        Except.error "segment not found"

/-- Embedding of `LayeredTimeline::get_layer_for_write` for the head
timeline `f` (ancestors in `rest`): require an aligned LSN strictly above
`last_record_lsn`; reuse the open layer or create one at
`next_open_layer_at`; and when the layer does not cover the target segment
yet, register it, seeding `old_seg_size` from the predecessor layer found by
`get_layer_for_read_locked` at the layer's start LSN.  Returns the frame
with the (possibly new) open layer installed. -/
def get_layer_for_write (f : DPFrame) (rest : DPTimeline) (seg : SegmentTag)
    (lsn : Lsn) : Except String DPFrame := do
  if lsn % 8 ≠ 0 then
    Except.error "assertion failed: lsn is aligned"
  else if ¬ f.last_record_lsn < lsn then
    Except.error "cannot modify relation after advancing last_record_lsn"
  else do
    let (o, f1) ←
      match f.layers.open_layer with
      | some open_layer =>
        if lsn < open_layer.start_lsn then
          Except.error "unexpected open layer in the future"
        else
          Except.ok (open_layer, f)
      | none =>
        match f.layers.next_open_layer_at with
        | none => Except.error "next_open_layer_at is not set"
        | some start_lsn =>
          let new_layer : InMemoryLayer :=
            { start_lsn := start_lsn, end_lsn := none,
              segs := fun _ => none, pages := [] }
          Except.ok (new_layer,
            { f with layers := { f.layers with
                open_layer := some new_layer
                next_open_layer_at := none } })
    if o.covers_seg seg then
      pure f1
    else
      let start_lsn := o.start_lsn
      let old_seg_size :=
        match get_layer_for_read (f1 :: rest) seg start_lsn with
        | some (predecessor, plsn) => predecessor.get_seg_size seg plsn
        | none => none
      let new_seg_state : SegState := { inherited_size := old_seg_size, meta := [] }
      let o' := { o with segs :=
        fun s => if s = seg then some new_seg_state else o.segs s }
      pure { f1 with layers := { f1.layers with open_layer := some o' } }

/-- Append a metadata mutation for `seg` to the open layer of the frame (the
effect of `put_seg_size`, `put_creation` and `drop_segment` on the layer
returned by `get_layer_for_write`). -/
def frame_put_meta (f : DPFrame) (seg : SegmentTag) (lsn : Lsn)
    (op : SegMetaOp) : DPFrame :=
  { f with layers := { f.layers with
      open_layer := f.layers.open_layer.map fun o =>
        { o with segs := fun s =>
            if s = seg then
              (o.segs s).map fun st => { st with meta := (lsn, op) :: st.meta }
            else
              o.segs s } } }

/-- Insert/overwrite in the per-relish size cache. -/
def relish_size_cache_insert (c : List (RelishTag × Nat)) (rel : RelishTag)
    (size : Nat) : List (RelishTag × Nat) :=
  match c with
  | [] => [(rel, size)]
  | (r, s) :: rest =>
    if r = rel then (rel, size) :: rest
    else (r, s) :: relish_size_cache_insert rest rel size

/-- Embedding of `LayeredTimeline::decrease_current_logical_size`:
`fetch_sub` on the `AtomicUsize` counter, with 64-bit wraparound. -/
def decrease_current_logical_size (f : DPFrame) (diff : Nat) : DPFrame :=
  { f with current_logical_size :=
      (f.current_logical_size + (18446744073709551616 - diff % 18446744073709551616))
        % 18446744073709551616 }

/-- Embedding of `LayeredTimelineWriter::put_truncation` for the head
timeline `f` (ancestors in `rest`): read the old size at `last_record_lsn`,
drop every segment past the last remaining one, truncate the last remaining
segment, update the size cache, and decrease `current_logical_size` by
`(oldsize − relsize) * BLCKSZ` — a `u32` product, modelled with an explicit
`% 2^32`. -/
def put_truncation (f : DPFrame) (rest : DPTimeline) (rel : RelishTag)
    (lsn : Lsn) (relsize : Nat) : Except String DPFrame := do
  if !rel.is_blocky then
    Except.error "invalid truncation for non-blocky relish"
  else if lsn % 8 ≠ 0 then
    Except.error "unaligned record LSN"
  else do
    let oldsize_opt ← get_relish_size (f :: rest) rel f.last_record_lsn
    match oldsize_opt with
    | none => Except.error "attempted to truncate non-existent relish"
    | some oldsize =>
      if oldsize ≤ relsize then
        pure f
      else
        let old_last_seg := (oldsize - 1) / RELISH_SEG_SIZE
        let last_remain_seg :=
          if relsize = 0 then 0 else (relsize - 1) / RELISH_SEG_SIZE
        let drop_segnos :=
          (List.range (old_last_seg - last_remain_seg)).map
            fun i => last_remain_seg + 1 + i
        let f ← drop_segnos.foldlM
          (fun f remove_segno => do
            let seg : SegmentTag := ⟨rel, remove_segno⟩
            let f ← get_layer_for_write f rest seg lsn
            pure (frame_put_meta f seg lsn .segDropped))
          f
        let f ←
          if relsize = 0 ∨ relsize % RELISH_SEG_SIZE ≠ 0 then do
            let seg : SegmentTag := ⟨rel, last_remain_seg⟩
            let f ← get_layer_for_write f rest seg lsn
            pure (frame_put_meta f seg lsn (.segSize (relsize % RELISH_SEG_SIZE)))
          else
            pure f
        let f := { f with
          relish_size_cache := relish_size_cache_insert f.relish_size_cache rel relsize }
        pure (decrease_current_logical_size f (((oldsize - relsize) * BLCKSZ) % 4294967296))

/-! ## Concrete states used by witnesses and counterexamples -/

/-- A test relation relish. -/
def demo_rel : RelishTag := .relation ⟨0, 111, 1000, 0⟩

/-- Segment 0 of `demo_rel`. -/
def demo_seg : SegmentTag := ⟨demo_rel, 0⟩

/-- A historic singleton layer over `demo_seg`, LSN range 5–10, live. -/
def gcdemo_layer_a : GcLayer :=
  { layer_id := 1, start_lsn := 5, end_lsn := 10, is_in_memory := false,
    is_incremental := true, seg_range := [demo_seg],
    covers_seg := fun s => decide (s = demo_seg), seg_exists := fun _ _ => true }

/-- A newer historic image layer over `demo_seg`, LSN range 12–15. -/
def gcdemo_layer_b : GcLayer :=
  { layer_id := 2, start_lsn := 12, end_lsn := 15, is_in_memory := false,
    is_incremental := false, seg_range := [demo_seg],
    covers_seg := fun s => decide (s = demo_seg), seg_exists := fun _ _ => true }

/-- A GC state where `gcdemo_layer_a` is superseded by `gcdemo_layer_b`. -/
def gcdemo_st : GcTimelineState :=
  { historic := [gcdemo_layer_a, gcdemo_layer_b], disk_consistent_lsn := 20,
    latest_gc_cutoff_lsn := 0, ancestor := none }

/-- Directory entries for the `load_layer_map` witness
(`disk_consistent_lsn = 10`): two keepable layer files, two future ones, and
assorted non-layer files. -/
def loaddemo_entries : List TimelineDirEntry :=
  [ .layerFile (.imageFile 5), .layerFile (.imageFile 11),
    .layerFile (.deltaFile 7 12), .layerFile (.deltaFile 3 11),
    .metadataFile, .ephemeralFile 3, .otherFile 9, .oldFile ]

/-- A `write_to_disk` stand-in producing one delta file per frozen layer. -/
def demo_write_to_disk : WriteToDiskFn := fun l _ =>
  [{ file_id := l.layer_id, start_lsn := l.start_lsn,
     end_lsn := l.end_lsn.getD 0 }]

/-- Timeline state for the C3 witness: freshly loaded at
`disk_consistent_lsn = 8` with no layers yet. -/
def ckptdemo_s0 : CkptTimelineState :=
  { last_record_lsn := 8, prev_record_lsn := 0, disk_consistent_lsn := 8,
    open_layer := none, frozen_layer := none, next_open_layer_at := some 9,
    historic := [], latest_gc_cutoff_lsn := 0, ancestor_timeline := none,
    ancestor_lsn := 0, initdb_lsn := 0, metadata_writes := [],
    fresh_layer_id := 0 }

/-- Timeline state for the C7 witness: a frozen layer sealed at end LSN 17
awaits flushing, with `last_record_lsn = 16`. -/
def ckptdemo_frozen : CkptInMemLayer :=
  { layer_id := 1, start_lsn := 9, oldest_lsn := 10, end_lsn := some 17 }

/-- Timeline state whose open layer is flushable (for the C7/C8 witnesses). -/
def ckptdemo_s1 : CkptTimelineState :=
  { last_record_lsn := 16, prev_record_lsn := 8, disk_consistent_lsn := 8,
    open_layer := some { layer_id := 1, start_lsn := 9, oldest_lsn := 10,
                         end_lsn := none },
    frozen_layer := none, next_open_layer_at := none, historic := [],
    latest_gc_cutoff_lsn := 0, ancestor_timeline := none, ancestor_lsn := 0,
    initdb_lsn := 0, metadata_writes := [], fresh_layer_id := 2 }

/-- Repository for the C4 witness: one local source timeline with
`latest_gc_cutoff_lsn = 100`. -/
def branchdemo_repo : BranchRepo :=
  { timelines := [(1, some { last_record_lsn := 100, prev_record_lsn := 90,
                             latest_gc_cutoff_lsn := 100, initdb_lsn := 0 })],
    timeline_dirs := [1], metadata_files := [] }

/-- In-memory open layer for the C6 counterexample: one page image for block
0 of `demo_rel` buffered at LSN 8. -/
def c6demo_open : InMemoryLayer :=
  { start_lsn := 8, end_lsn := none,
    segs := fun s =>
      if s = demo_seg then
        some { inherited_size := none, meta := [(8, .segCreation 1)] }
      else none,
    pages := [(demo_seg, 0, 8, .page [7, 7])] }

/-- Timeline frame for the C6 counterexample, with `last_record_lsn = 8`. -/
def c6demo_frame : DPFrame :=
  { layers := { open_layer := some c6demo_open, frozen_layer := none,
                historic := [], next_open_layer_at := none },
    last_record_lsn := 8, ancestor_lsn := 0, current_logical_size := 0,
    relish_size_cache := [] }

/-- Open layer for the C9 witness: `demo_rel` created with 100 blocks at
LSN 8 (all inside segment 0). -/
def truncdemo_open : InMemoryLayer :=
  { start_lsn := 8, end_lsn := none,
    segs := fun s =>
      if s = demo_seg then
        some { inherited_size := none, meta := [(8, .segCreation 100)] }
      else none,
    pages := [] }

/-- Timeline frame for the C9 witness: 100 blocks, logical size
`100 * BLCKSZ`. -/
def truncdemo_frame : DPFrame :=
  { layers := { open_layer := some truncdemo_open, frozen_layer := none,
                historic := [], next_open_layer_at := none },
    last_record_lsn := 8, ancestor_lsn := 0, current_logical_size := 819200,
    relish_size_cache := [] }

/-- A second test relation, used by the C9 counterexample. -/
def bigdemo_rel : RelishTag := .relation ⟨0, 111, 2000, 0⟩

/-- Open layer for the C9 counterexample: `bigdemo_rel` created with
410 full segments (524800 blocks, a 4.1 GiB relation) at LSN 8. -/
def bigdemo_open : InMemoryLayer :=
  { start_lsn := 8, end_lsn := none,
    segs := fun s =>
      if s.rel = bigdemo_rel ∧ s.segno < 410 then
        some { inherited_size := none, meta := [(8, .segCreation 1280)] }
      else none,
    pages := [] }

/-- Timeline frame for the C9 counterexample, logical size `2^33` bytes. -/
def bigdemo_frame : DPFrame :=
  { layers := { open_layer := some bigdemo_open, frozen_layer := none,
                historic := [], next_open_layer_at := none },
    last_record_lsn := 8, ancestor_lsn := 0,
    current_logical_size := 8589934592, relish_size_cache := [] }

/-- A timeline frame whose layer state is exactly one open in-memory layer:
no frozen layer, no historic layers, no ancestor (the configuration in
which the truncation claim is settled). -/
structure single_open_frame (f : DPFrame) (o : InMemoryLayer) : Prop where
  hopen : f.layers.open_layer = some o
  hfrozen : f.layers.frozen_layer = none
  hhist : f.layers.historic = []
  hanc : f.ancestor_lsn = 0

/-- Invariant of the drop loop of `put_truncation` over a
`single_open_frame` state: the reached frame `f'` again holds exactly one
open layer, unchanged except that every segment of `rel` whose number is in
`dropped` now carries a drop marker at `lsn` at the head of its buffered
metadata, and every other segment's state is untouched. -/
def trunc_inv (f : DPFrame) (o : InMemoryLayer) (rel : RelishTag) (lsn : Lsn)
    (dropped : List Nat) (f' : DPFrame) : Prop :=
  ∃ o', f'.layers.open_layer = some o' ∧
    f'.layers.frozen_layer = none ∧
    f'.layers.historic = [] ∧
    f'.ancestor_lsn = f.ancestor_lsn ∧
    f'.last_record_lsn = f.last_record_lsn ∧
    f'.current_logical_size = f.current_logical_size ∧
    o'.start_lsn = o.start_lsn ∧
    (∀ seg : SegmentTag, (seg.rel = rel → seg.segno ∉ dropped) →
      o'.segs seg = o.segs seg) ∧
    (∀ n ∈ dropped, ∃ st, o'.segs ⟨rel, n⟩ = some st ∧
      ∃ rest, st.meta = (lsn, SegMetaOp.segDropped) :: rest)

/-! ## Theorems -/

/-- C5: `reconstruct_page` implements this case analysis: with no collected
records and a base image it returns the base image (for every redo executor,
i.e. without invoking redo); with no records and no base image it returns
the 8 KiB zero page; with records but no base image whose oldest
(ascending-LSN) record is not `will_init` it returns the zero page; and
otherwise it hands `(relish, block, request_lsn, base image?, records
reversed into ascending-LSN order)` to the WAL-redo executor and returns its
result. -/
theorem c5_reconstruct_page_case_analysis (request_redo : RedoFn)
    (rel : RelishTag) (rel_blknum : Nat) (request_lsn : Lsn)
    (data : PageReconstructData) :
    (data.records = [] → ∀ img_lsn img, data.page_img = some (img_lsn, img) →
      reconstruct_page request_redo rel rel_blknum request_lsn data = img) ∧
    (data.records = [] → data.page_img = none →
      reconstruct_page request_redo rel rel_blknum request_lsn data = ZERO_PAGE) ∧
    (∀ oldest rest, data.records.reverse = oldest :: rest →
      data.page_img = none → oldest.2.will_init = false →
      reconstruct_page request_redo rel rel_blknum request_lsn data = ZERO_PAGE) ∧
    (∀ oldest rest, data.records.reverse = oldest :: rest →
      (data.page_img.isSome = true ∨ oldest.2.will_init = true) →
      reconstruct_page request_redo rel rel_blknum request_lsn data =
        request_redo rel rel_blknum request_lsn (data.page_img.map Prod.snd)
          data.records.reverse) := by
  refine ⟨?_, ?_, ?_, ?_⟩
  · intro hrec img_lsn img himg
    simp [reconstruct_page, hrec, himg]
  · intro hrec himg
    simp [reconstruct_page, hrec, himg]
  · intro oldest rest hrev himg hwi
    simp [reconstruct_page, hrev, himg, hwi]
  · intro oldest rest hrev hc
    rcases hc with hc | hc
    · obtain ⟨⟨img_lsn, img⟩, hp⟩ := Option.isSome_iff_exists.mp hc
      simp [reconstruct_page, hrev, hp]
    · simp [reconstruct_page, hrev, hc]

/-- Witness for C5: each of the four cases evaluated at a concrete input. -/
theorem c5_reconstruct_page_witness :
    reconstruct_page (fun _ _ _ _ _ => [42]) demo_rel 0 9
      { records := [], page_img := some (5, [1, 2]) } = [1, 2] ∧
    reconstruct_page (fun _ _ _ _ _ => [42]) demo_rel 0 9
      { records := [], page_img := none } = ZERO_PAGE ∧
    reconstruct_page (fun _ _ _ _ _ => [42]) demo_rel 0 9
      { records := [(3, ⟨false, 0⟩)], page_img := none } = ZERO_PAGE ∧
    reconstruct_page (fun _ _ _ _ _ => [42]) demo_rel 0 9
      { records := [(3, ⟨true, 0⟩)], page_img := none } = [42] := by
  refine ⟨?_, ?_, ?_, ?_⟩
  · exact (c5_reconstruct_page_case_analysis _ _ _ _ _).1 rfl 5 [1, 2] rfl
  · exact (c5_reconstruct_page_case_analysis _ _ _ _ _).2.1 rfl rfl
  · exact (c5_reconstruct_page_case_analysis (fun _ _ _ _ _ => [42]) demo_rel 0 9
      { records := [(3, ⟨false, 0⟩)], page_img := none }).2.2.1
      (3, ⟨false, 0⟩) [] rfl rfl rfl
  · exact ((c5_reconstruct_page_case_analysis (fun _ _ _ _ _ => [42]) demo_rel 0 9
      { records := [(3, ⟨true, 0⟩)], page_img := none }).2.2.2
      (3, ⟨true, 0⟩) [] rfl (Or.inr rfl)).trans rfl

/-- Lookup after insert finds the inserted entry. -/
theorem timelineMapGet_insert (m : TimelineMap) (id : Nat)
    (e : LayeredTimelineEntry) :
    timelineMapGet (timelineMapInsert m id e) id = some e := by
  induction m with
  | nil => simp [timelineMapInsert, timelineMapGet]
  | cons kv rest ih =>
    obtain ⟨k, v⟩ := kv
    by_cases h : k = id
    · simp [timelineMapInsert, timelineMapGet, h]
    · simp [timelineMapInsert, timelineMapGet, h, ih]

/-- C10: `get_timeline_state` returns `none` for an absent timeline and
otherwise only the `Ready(disk_consistent_lsn)` or
`CloudOnly(disk_consistent_lsn)` variants; in particular after
`set_timeline_state(id, AwaitsDownload(d))` it reports `CloudOnly(d)`,
never `AwaitsDownload` or `Evicted`. -/
theorem c10_get_timeline_state_only_ready_or_cloud
    (load_result : Except String Lsn) :
    (∀ m id, timelineMapGet m id = none → get_timeline_state m id = none) ∧
    (∀ m id st, get_timeline_state m id = some st →
      (∃ d, st = TimelineSyncState.ready d) ∨
      (∃ d, st = TimelineSyncState.cloudOnly d)) ∧
    (∀ m id d m',
      set_timeline_state load_result m id (.awaitsDownload d) = Except.ok m' →
      get_timeline_state m' id = some (.cloudOnly d)) := by
  refine ⟨?_, ?_, ?_⟩
  · intro m id h
    simp [get_timeline_state, h]
  · intro m id st h
    unfold get_timeline_state at h
    cases hg : timelineMapGet m id with
    | none => rw [hg] at h; exact absurd h (by simp)
    | some e =>
      rw [hg] at h
      rw [Option.some_inj] at h
      cases e with
      | localTl d =>
        left
        exact ⟨d, by simp [← h, LayeredTimelineEntry.local_or_schedule_download,
          LayeredTimelineEntry.disk_consistent_lsn]⟩
      | remoteTl i d =>
        right
        exact ⟨d, by simp [← h, LayeredTimelineEntry.local_or_schedule_download,
          LayeredTimelineEntry.disk_consistent_lsn]⟩
  · intro m id d m' h
    have hm : m' = timelineMapInsert m id (.remoteTl id d) := by
      simp only [set_timeline_state, pure, Except.pure, Except.ok.injEq] at h
      exact h.symm
    subst hm
    simp [get_timeline_state, timelineMapGet_insert,
      LayeredTimelineEntry.local_or_schedule_download,
      LayeredTimelineEntry.disk_consistent_lsn]

/-- Witness for C10: the three parts applied at concrete maps. -/
theorem c10_get_timeline_state_witness :
    get_timeline_state [(7, .localTl 5)] 3 = none ∧
    ((∃ d, TimelineSyncState.ready 5 = TimelineSyncState.ready d) ∨
      (∃ d, TimelineSyncState.ready 5 = TimelineSyncState.cloudOnly d)) ∧
    get_timeline_state
      (timelineMapInsert [(7, LayeredTimelineEntry.localTl 5)] 7
        (.remoteTl 7 4)) 7 = some (.cloudOnly 4) := by
  refine ⟨?_, ?_, ?_⟩
  · exact (c10_get_timeline_state_only_ready_or_cloud (.ok 0)).1
      [(7, .localTl 5)] 3 rfl
  · exact (c10_get_timeline_state_only_ready_or_cloud (.ok 0)).2.1
      [(7, .localTl 5)] 7 (.ready 5) rfl
  · exact (c10_get_timeline_state_only_ready_or_cloud (.ok 0)).2.2
      [(7, .localTl 5)] 7 4 _ rfl

/-- C4: branching strictly below the source's `latest_gc_cutoff_lsn` fails
with the context "invalid branch start lsn" (returning an error, so no new
timeline directory or metadata is created), while the
`check_lsn_is_in_scope` validation succeeds for every
`start_lsn ≥ latest_gc_cutoff_lsn`. -/
theorem c4_branch_start_lsn_validation (repo : BranchRepo) (src dst : Nat)
    (start_lsn : Lsn) (src_timeline : BranchSrcTimeline)
    (hsrc : branchRepoGet repo.timelines src = some (some src_timeline)) :
    (start_lsn < src_timeline.latest_gc_cutoff_lsn →
      branch_timeline repo src dst start_lsn =
        Except.error "invalid branch start lsn") ∧
    (src_timeline.latest_gc_cutoff_lsn ≤ start_lsn →
      check_lsn_is_in_scope start_lsn src_timeline.latest_gc_cutoff_lsn =
        Except.ok ()) := by
  constructor
  · intro hlt
    have hnle : ¬ src_timeline.latest_gc_cutoff_lsn ≤ start_lsn :=
      Nat.not_le.mpr hlt
    simp [branch_timeline, hsrc, check_lsn_is_in_scope, hnle]
  · intro hle
    simp [check_lsn_is_in_scope, hle]

/-- Witness for C4: in `branchdemo_repo` (cutoff 100), branching at 50 fails
with "invalid branch start lsn", and the scope check passes at 100. -/
theorem c4_branch_start_lsn_witness :
    branch_timeline branchdemo_repo 1 2 50 =
      Except.error "invalid branch start lsn" ∧
    check_lsn_is_in_scope 100 100 = Except.ok () := by
  constructor
  · exact (c4_branch_start_lsn_validation branchdemo_repo 1 2 50
      { last_record_lsn := 100, prev_record_lsn := 90,
        latest_gc_cutoff_lsn := 100, initdb_lsn := 0 } rfl).1 (by decide)
  · exact (c4_branch_start_lsn_validation branchdemo_repo 1 2 100
      { last_record_lsn := 100, prev_record_lsn := 90,
        latest_gc_cutoff_lsn := 100, initdb_lsn := 0 } rfl).2 (by decide)

/-- Inversion of a successful `Except` bind. -/
theorem exceptBind_ok {ε α β : Type} {x : Except ε α} {f : α → Except ε β}
    {b : β} (h : (x >>= f) = Except.ok b) :
    ∃ a, x = Except.ok a ∧ f a = Except.ok b := by
  cases x with
  | error e => simp [Bind.bind, Except.bind] at h
  | ok a => exact ⟨a, rfl, by simpa [Bind.bind, Except.bind] using h⟩

/-- The directory-scan fold of `load_layer_map` appends exactly the keepable
layer files to `inserted` and exactly the future ones to `renamed`. -/
theorem load_fold_partition (D : Lsn) (be : LayerFileName → Nat → Bool) :
    ∀ (entries : List TimelineDirEntry) (acc out : LoadLayerMapResult),
    List.foldlM (load_layer_map_step D be) acc entries = Except.ok out →
    out.inserted = acc.inserted ++ spec_kept_layer_files D entries ∧
    out.renamed.map Prod.fst =
      acc.renamed.map Prod.fst ++ spec_future_layer_files D entries := by
  intro entries
  induction entries with
  | nil =>
    intro acc out h
    simp only [List.foldlM_nil, pure, Except.pure, Except.ok.injEq] at h
    subst h
    simp [spec_kept_layer_files, spec_future_layer_files]
  | cons e rest ih =>
    intro acc out h
    rw [List.foldlM_cons] at h
    obtain ⟨acc1, hstep, hrest⟩ := exceptBind_ok h
    have hkept := fun (g : LayerFileName) =>
      (rfl : spec_kept_layer_files D (TimelineDirEntry.layerFile g :: rest)
        = spec_kept_layer_files D (TimelineDirEntry.layerFile g :: rest))
    cases e with
    | layerFile f =>
      cases f with
      | imageFile lsn =>
        by_cases hl : lsn > D
        · simp only [load_layer_map_step, if_pos hl] at hstep
          obtain ⟨n, hren, hacc1⟩ := exceptBind_ok hstep
          simp only [pure, Except.pure, Except.ok.injEq] at hacc1
          subst hacc1
          obtain ⟨h1, h2⟩ := ih _ _ hrest
          constructor
          · rw [h1]
            simp [spec_kept_layer_files, Nat.not_le.mpr hl]
          · rw [h2]
            simp [spec_future_layer_files, hl]
        · simp only [load_layer_map_step, if_neg hl, pure, Except.pure,
            Except.ok.injEq] at hstep
          subst hstep
          obtain ⟨h1, h2⟩ := ih _ _ hrest
          constructor
          · rw [h1]
            simp [spec_kept_layer_files, Nat.le_of_not_lt hl]
          · rw [h2]
            simp [spec_future_layer_files, hl]
      | deltaFile s t =>
        by_cases hst : s < t
        · by_cases hl : t > D + 1
          · simp only [load_layer_map_step, if_pos hst, if_pos hl] at hstep
            obtain ⟨n, hren, hacc1⟩ := exceptBind_ok hstep
            simp only [pure, Except.pure, Except.ok.injEq] at hacc1
            subst hacc1
            obtain ⟨h1, h2⟩ := ih _ _ hrest
            constructor
            · rw [h1]
              simp [spec_kept_layer_files, Nat.not_le.mpr hl]
            · rw [h2]
              simp [spec_future_layer_files, hl]
          · simp only [load_layer_map_step, if_pos hst, if_neg hl, pure,
              Except.pure, Except.ok.injEq] at hstep
            subst hstep
            obtain ⟨h1, h2⟩ := ih _ _ hrest
            constructor
            · rw [h1]
              simp [spec_kept_layer_files, Nat.le_of_not_lt hl]
            · rw [h2]
              simp [spec_future_layer_files, hl]
        · simp [load_layer_map_step, if_neg hst] at hstep
    | metadataFile =>
      simp only [load_layer_map_step, pure, Except.pure, Except.ok.injEq] at hstep
      subst hstep
      obtain ⟨h1, h2⟩ := ih _ _ hrest
      exact ⟨by rw [h1]; simp [spec_kept_layer_files],
             by rw [h2]; simp [spec_future_layer_files]⟩
    | oldFile =>
      simp only [load_layer_map_step, pure, Except.pure, Except.ok.injEq] at hstep
      subst hstep
      obtain ⟨h1, h2⟩ := ih _ _ hrest
      exact ⟨by rw [h1]; simp [spec_kept_layer_files],
             by rw [h2]; simp [spec_future_layer_files]⟩
    | ephemeralFile id =>
      simp only [load_layer_map_step, pure, Except.pure, Except.ok.injEq] at hstep
      subst hstep
      obtain ⟨h1, h2⟩ := ih _ _ hrest
      exact ⟨by rw [h1]; simp [spec_kept_layer_files],
             by rw [h2]; simp [spec_future_layer_files]⟩
    | otherFile id =>
      simp only [load_layer_map_step, pure, Except.pure, Except.ok.injEq] at hstep
      subst hstep
      obtain ⟨h1, h2⟩ := ih _ _ hrest
      exact ⟨by rw [h1]; simp [spec_kept_layer_files],
             by rw [h2]; simp [spec_future_layer_files]⟩

/-- C2: when `load_layer_map` succeeds at `disk_consistent_lsn = D`, the
layer files it inserts into the layer map are exactly those with image
`lsn ≤ D` or delta `end_lsn ≤ D + 1` (kept in place), the files it renames
aside with a `.N.old` suffix are exactly those with image `lsn > D` or delta
`end_lsn > D + 1` (and those are not inserted), and `next_open_layer_at` is
set to `D + 1`. -/
theorem c2_load_layer_map_partition (D : Lsn)
    (be : LayerFileName → Nat → Bool) (entries : List TimelineDirEntry)
    (out : LoadLayerMapResult)
    (h : load_layer_map D be entries = Except.ok out) :
    out.inserted = spec_kept_layer_files D entries ∧
    out.renamed.map Prod.fst = spec_future_layer_files D entries ∧
    out.next_open_layer_at = D + 1 := by
  unfold load_layer_map at h
  obtain ⟨acc, hfold, hpure⟩ := exceptBind_ok h
  simp only [pure, Except.pure, Except.ok.injEq] at hpure
  subst hpure
  obtain ⟨h1, h2⟩ := load_fold_partition D be entries _ _ hfold
  simp only at h1 h2
  exact ⟨by simpa using h1, by simpa using h2, rfl⟩

/-- Witness for C2: the partition computed on `loaddemo_entries` at
`disk_consistent_lsn = 10`. -/
theorem c2_load_layer_map_witness :
    ∃ out, load_layer_map 10 (fun _ _ => false) loaddemo_entries =
        Except.ok out ∧
      out.inserted = spec_kept_layer_files 10 loaddemo_entries ∧
      out.renamed.map Prod.fst = spec_future_layer_files 10 loaddemo_entries ∧
      out.next_open_layer_at = 11 :=
  ⟨_, rfl, c2_load_layer_map_partition 10 (fun _ _ => false) loaddemo_entries _ rfl⟩

/-- A layer pushed onto `layers_to_remove` passed GC conditions 1 and 2: it
is at or below the cutoff and above every retained branch point. -/
theorem gc_decide_true_bounds (st : GcTimelineState) (retain_lsns : List Lsn)
    (cutoff : Lsn) (l : GcLayer)
    (h : gc_decide_layer st retain_lsns cutoff l = Except.ok true) :
    l.end_lsn ≤ cutoff ∧ ∀ r ∈ retain_lsns, r < l.start_lsn := by
  unfold gc_decide_layer at h
  by_cases h1 : l.is_in_memory
  · simp [h1] at h
  · simp only [h1, Bool.false_eq_true, if_false, if_neg] at h
    cases hs : get_singleton l.seg_range with
    | none => rw [hs] at h; simp at h
    | some seg =>
      rw [hs] at h
      by_cases h2 : l.end_lsn > cutoff
      · simp [h2] at h
      · by_cases h3 : retain_lsns.any fun retain_lsn => decide (l.start_lsn ≤ retain_lsn)
        · simp only [if_neg h2, if_pos h3] at h
          simp at h
        · refine ⟨Nat.le_of_not_lt h2, ?_⟩
          intro r hr
          by_contra hcon
          exact h3 (List.any_eq_true.mpr ⟨r, hr, by
            simpa using Nat.le_of_not_lt hcon⟩)

/-- The GC scan fold only accumulates layers passing conditions 1 and 2. -/
theorem gc_fold_deleted_bounds (st : GcTimelineState) (retain_lsns : List Lsn)
    (cutoff : Lsn) :
    ∀ (layers acc res : List GcLayer),
    List.foldlM
      (fun acc l => do
        let doomed ← gc_decide_layer st retain_lsns cutoff l
        pure (if doomed then acc ++ [l] else acc))
      acc layers = Except.ok res →
    (∀ l ∈ acc, l.end_lsn ≤ cutoff ∧ ∀ r ∈ retain_lsns, r < l.start_lsn) →
    ∀ l ∈ res, l.end_lsn ≤ cutoff ∧ ∀ r ∈ retain_lsns, r < l.start_lsn := by
  intro layers
  induction layers with
  | nil =>
    intro acc res h hacc
    simp only [List.foldlM_nil, pure, Except.pure, Except.ok.injEq] at h
    subst h
    exact hacc
  | cons l rest ih =>
    intro acc res h hacc
    rw [List.foldlM_cons] at h
    obtain ⟨acc1, hstep, hrest⟩ := exceptBind_ok h
    obtain ⟨d, hdec, hpure⟩ := exceptBind_ok hstep
    simp only [pure, Except.pure, Except.ok.injEq] at hpure
    subst hpure
    cases d with
    | false =>
      exact ih _ _ hrest (by simpa using hacc)
    | true =>
      refine ih _ _ hrest ?_
      intro m hm
      rcases (by simpa using hm : m ∈ acc ∨ m = l) with hm | rfl
      · exact hacc m hm
      · exact gc_decide_true_bounds st retain_lsns cutoff m hdec

/-- C1: every layer `gc_timeline(retain_lsns, cutoff)` deletes from disk and
removes from the layer map has `end_lsn ≤ cutoff` and a `start_lsn` strictly
above every LSN in `retain_lsns`; a layer newer than the cutoff, or
reaching at or below a retained branch point, is never deleted. -/
theorem c1_gc_timeline_deleted_bounds (st : GcTimelineState)
    (retain_lsns : List Lsn) (cutoff : Lsn) (st' : GcTimelineState)
    (deleted : List GcLayer)
    (h : gc_timeline st retain_lsns cutoff = Except.ok (st', deleted)) :
    ∀ l ∈ deleted, l.end_lsn ≤ cutoff ∧ ∀ r ∈ retain_lsns, r < l.start_lsn := by
  unfold gc_timeline at h
  obtain ⟨ltr, hfold, hpure⟩ := exceptBind_ok h
  simp only [pure, Except.pure, Except.ok.injEq, Prod.mk.injEq] at hpure
  obtain ⟨-, hdel⟩ := hpure
  subst hdel
  exact gc_fold_deleted_bounds _ retain_lsns cutoff _ _ _ hfold (by simp)

/-- Witness for C1: on `gcdemo_st` with cutoff 20 the pass deletes the
superseded layer, and the deleted set satisfies the bounds. -/
theorem c1_gc_timeline_witness :
    ∃ r, gc_timeline gcdemo_st [] 20 = Except.ok r ∧ r.2 ≠ [] ∧
      ∀ l ∈ r.2, l.end_lsn ≤ 20 ∧ ∀ lsn ∈ ([] : List Lsn), lsn < l.start_lsn := by
  refine ⟨_, rfl, ?_, ?_⟩
  · exact List.cons_ne_nil _ _
  · exact c1_gc_timeline_deleted_bounds gcdemo_st [] 20 _ _ rfl

/-- Structure of a successful `flush_frozen_layer`: the frozen pointer is
dropped, the open layer and `last_record_lsn` are untouched, and
`disk_consistent_lsn` can only move up — strictly, whenever it changes. -/
theorem flush_frozen_layer_ok (w : WriteToDiskFn) (s : CkptTimelineState)
    (fr : CkptInMemLayer) (rc : Bool) (s' : CkptTimelineState)
    (files : List CkptDiskFile)
    (h : flush_frozen_layer w s fr rc = Except.ok (s', files)) :
    s'.frozen_layer = none ∧
    s'.open_layer = s.open_layer ∧
    s'.last_record_lsn = s.last_record_lsn ∧
    s.disk_consistent_lsn ≤ s'.disk_consistent_lsn ∧
    (s'.disk_consistent_lsn ≠ s.disk_consistent_lsn →
      s.disk_consistent_lsn < s'.disk_consistent_lsn) := by
  simp only [flush_frozen_layer] at h
  split at h
  · exact absurd h (by simp)
  · split at h
    · split at h
      · exact absurd h (by simp)
      · next hle =>
        simp only [Except.ok.injEq, Prod.mk.injEq] at h
        obtain ⟨hs, -⟩ := h
        subst hs
        refine ⟨rfl, rfl, rfl, ?_, ?_⟩
        · exact Nat.le_of_lt (Nat.lt_of_not_le hle)
        · intro _
          exact Nat.lt_of_not_le hle
    · simp only [Except.ok.injEq, Prod.mk.injEq] at h
      obtain ⟨hs, -⟩ := h
      subst hs
      exact ⟨rfl, rfl, rfl, Nat.le_refl _, by simp⟩

/-- Structure of a successful checkpoint loop: `disk_consistent_lsn` only
moves up, `last_record_lsn` is untouched, and the loop exits in a state
satisfying its break condition. -/
theorem ckpt_loop_ok (w : WriteToDiskFn) (d : Nat) (rc : Bool) :
    ∀ (fuel : Nat) (s : CkptTimelineState) (acc : List CkptDiskFile)
      (s' : CkptTimelineState) (files : List CkptDiskFile),
    ckpt_loop w d rc fuel s acc = Except.ok (s', files) →
    s.disk_consistent_lsn ≤ s'.disk_consistent_lsn ∧
    s'.last_record_lsn = s.last_record_lsn ∧
    ckpt_break_condition d s' := by
  intro fuel
  induction fuel with
  | zero => intro s acc s' files h; exact absurd h (by simp [ckpt_loop])
  | succ fuel ih =>
    intro s acc s' files h
    rw [ckpt_loop] at h
    split at h
    next fr hfz =>
      obtain ⟨⟨s1, files1⟩, hflush, hrest⟩ := exceptBind_ok h
      obtain ⟨-, -, hlast1, hdcl1, -⟩ :=
        flush_frozen_layer_ok w s fr rc s1 files1 hflush
      obtain ⟨hdcl2, hlast2, hbc⟩ := ih s1 (acc ++ files1) s' files hrest
      exact ⟨Nat.le_trans hdcl1 hdcl2, by rw [hlast2, hlast1], hbc⟩
    next hfz =>
      split at h
      next ol hop =>
        dsimp only at h
        split at h
        next hbr =>
          simp only [Except.ok.injEq, Prod.mk.injEq] at h
          obtain ⟨hs, -⟩ := h
          subst hs
          exact ⟨Nat.le_refl _, rfl, hfz, Or.inr ⟨ol, hop, hbr⟩⟩
        next hbr =>
          obtain ⟨hdcl2, hlast2, hbc⟩ := ih _ acc s' files h
          exact ⟨hdcl2, hlast2, hbc⟩
      next hop =>
        simp only [Except.ok.injEq, Prod.mk.injEq] at h
        obtain ⟨hs, -⟩ := h
        subst hs
        exact ⟨Nat.le_refl _, rfl, hfz, Or.inl hop⟩

/-- A state satisfying the break condition exits the checkpoint loop at once
and unchanged. -/
theorem ckpt_loop_break_exit (w : WriteToDiskFn) (d : Nat) (rc : Bool)
    (fuel : Nat) (s : CkptTimelineState) (acc : List CkptDiskFile)
    (hbc : ckpt_break_condition d s) :
    ckpt_loop w d rc (fuel + 1) s acc = Except.ok (s, acc) := by
  obtain ⟨hfz, hop⟩ := hbc
  rw [ckpt_loop, hfz]
  rcases hop with hop | ⟨ol, hop, hcond⟩
  · rw [hop]
  · rw [hop]
    dsimp only
    rw [if_pos hcond]

/-- One step of the timeline state machine never decreases either LSN. -/
theorem timeline_step_mono (w : WriteToDiskFn) (s : CkptTimelineState)
    (op : TimelineOp) (s' : CkptTimelineState)
    (h : timeline_step w s op = Except.ok s') :
    s.disk_consistent_lsn ≤ s'.disk_consistent_lsn ∧
    s.last_record_lsn ≤ s'.last_record_lsn := by
  cases op with
  | opWrite lsn =>
    have hsel_inv : ∀ s1, select_open_layer s lsn = Except.ok s1 →
        s1.last_record_lsn = s.last_record_lsn ∧
        s1.disk_consistent_lsn = s.disk_consistent_lsn := by
      intro s1 hsel
      unfold select_open_layer at hsel
      split at hsel
      · split at hsel
        · exact absurd hsel (by simp)
        · simp only [Except.ok.injEq] at hsel
          subst hsel
          exact ⟨rfl, rfl⟩
      · split at hsel
        · exact absurd hsel (by simp)
        · simp only [Except.ok.injEq] at hsel
          subst hsel
          exact ⟨rfl, rfl⟩
    simp only [timeline_step, timeline_write] at h
    split at h
    · exact absurd h (by simp)
    · split at h
      · exact absurd h (by simp)
      · next hm =>
        split at h
        next e hsel => exact absurd h (by simp)
        next s1 hsel =>
          simp only [Except.ok.injEq] at h
          subst h
          obtain ⟨hl, hd⟩ := hsel_inv s1 hsel
          simp only
          rw [hd]
          exact ⟨Nat.le_refl _, Nat.le_of_lt (not_not.mp hm)⟩
  | opCheckpoint d rc =>
    unfold timeline_step at h
    obtain ⟨⟨s1, files⟩, hloop, hfin⟩ := exceptBind_ok h
    simp only [pure, Except.pure, Except.ok.injEq] at hfin
    subst hfin
    obtain ⟨hdcl, hlast, -⟩ := ckpt_loop_ok w d rc 8 s [] s1 files hloop
    exact ⟨hdcl, Nat.le_of_eq hlast.symm⟩
  | opGc cutoff collected =>
    unfold timeline_step at h
    simp only [Except.ok.injEq] at h
    subst h
    exact ⟨Nat.le_refl _, Nat.le_refl _⟩

/-- C3: along every successful sequence of writes, checkpoints, flushes and
GC passes, `disk_consistent_lsn` never decreases and `last_record_lsn`
never decreases; and `flush_frozen_layer` only stores a changed
`disk_consistent_lsn` that is strictly greater than the previous value. -/
theorem c3_lsn_monotonicity (write_to_disk : WriteToDiskFn) :
    (∀ (s : CkptTimelineState) (ops : List TimelineOp) (s' : CkptTimelineState),
      timeline_run write_to_disk s ops = Except.ok s' →
      s.disk_consistent_lsn ≤ s'.disk_consistent_lsn ∧
      s.last_record_lsn ≤ s'.last_record_lsn) ∧
    (∀ (s : CkptTimelineState) (fr : CkptInMemLayer) (rc : Bool)
      (s' : CkptTimelineState) (files : List CkptDiskFile),
      flush_frozen_layer write_to_disk s fr rc = Except.ok (s', files) →
      s'.disk_consistent_lsn ≠ s.disk_consistent_lsn →
      s.disk_consistent_lsn < s'.disk_consistent_lsn) := by
  constructor
  · intro s ops
    induction ops generalizing s with
    | nil =>
      intro s' h
      simp only [timeline_run, Except.ok.injEq] at h
      subst h
      exact ⟨Nat.le_refl _, Nat.le_refl _⟩
    | cons op rest ih =>
      intro s' h
      unfold timeline_run at h
      obtain ⟨s1, hstep, hrest⟩ := exceptBind_ok h
      obtain ⟨h1, h2⟩ := timeline_step_mono write_to_disk s op s1 hstep
      obtain ⟨h3, h4⟩ := ih s1 s' hrest
      exact ⟨Nat.le_trans h1 h3, Nat.le_trans h2 h4⟩
  · intro s fr rc s' files h
    exact (flush_frozen_layer_ok write_to_disk s fr rc s' files h).2.2.2.2

/-- Witness for C3: a write–checkpoint–GC run from `ckptdemo_s0`, and a
strictly advancing flush from `ckptdemo_s1`. -/
theorem c3_lsn_monotonicity_witness :
    (∃ s', timeline_run demo_write_to_disk ckptdemo_s0
        [.opWrite 16, .opCheckpoint 0 true, .opGc 10 (fun _ => false)] =
          Except.ok s' ∧
      ckptdemo_s0.disk_consistent_lsn ≤ s'.disk_consistent_lsn ∧
      ckptdemo_s0.last_record_lsn ≤ s'.last_record_lsn) ∧
    (∃ s2 files2, flush_frozen_layer demo_write_to_disk ckptdemo_s1
        ckptdemo_frozen true = Except.ok (s2, files2) ∧
      ckptdemo_s1.disk_consistent_lsn < s2.disk_consistent_lsn) := by
  constructor
  · refine ⟨_, rfl, ?_⟩
    exact (c3_lsn_monotonicity demo_write_to_disk).1 ckptdemo_s0
      [.opWrite 16, .opCheckpoint 0 true, .opGc 10 (fun _ => false)] _ rfl
  · refine ⟨_, _, rfl, ?_⟩
    exact (c3_lsn_monotonicity demo_write_to_disk).2 ckptdemo_s1 ckptdemo_frozen
      true _ _ rfl (by decide)

/-- C7: whenever `flush_frozen_layer` writes a new metadata file, the
persisted `prev_record_lsn` is `Some(prev_record_lsn)` if and only if the
newly computed `disk_consistent_lsn` equals the timeline's
`last_record_lsn` at that moment, and `None` otherwise. -/
theorem c7_flush_prev_record_lsn (write_to_disk : WriteToDiskFn)
    (s : CkptTimelineState) (fr : CkptInMemLayer) (rc : Bool)
    (s' : CkptTimelineState) (files : List CkptDiskFile)
    (h : flush_frozen_layer write_to_disk s fr rc = Except.ok (s', files)) :
    (s'.metadata_writes = s.metadata_writes ∧
      s'.disk_consistent_lsn = s.disk_consistent_lsn) ∨
    (∃ md, s'.metadata_writes = md :: s.metadata_writes ∧
      md.disk_consistent_lsn = s'.disk_consistent_lsn ∧
      md.prev_record_lsn =
        (if s'.disk_consistent_lsn = s.last_record_lsn then
          some s.prev_record_lsn
        else
          none)) := by
  simp only [flush_frozen_layer] at h
  split at h
  · exact absurd h (by simp)
  · split at h
    · split at h
      · exact absurd h (by simp)
      · simp only [Except.ok.injEq, Prod.mk.injEq] at h
        obtain ⟨hs, -⟩ := h
        subst hs
        right
        exact ⟨_, rfl, rfl, rfl⟩
    · simp only [Except.ok.injEq, Prod.mk.injEq] at h
      obtain ⟨hs, -⟩ := h
      subst hs
      left
      exact ⟨rfl, rfl⟩

/-- Witness for C7: flushing `ckptdemo_frozen` (end LSN 17) advances
`disk_consistent_lsn` to `last_record_lsn = 16`, so the metadata written
carries `prev_record_lsn = Some 8`. -/
theorem c7_flush_prev_record_lsn_witness :
    ∃ s2 files2, flush_frozen_layer demo_write_to_disk ckptdemo_s1
        ckptdemo_frozen true = Except.ok (s2, files2) ∧
      ((s2.metadata_writes = ckptdemo_s1.metadata_writes ∧
          s2.disk_consistent_lsn = ckptdemo_s1.disk_consistent_lsn) ∨
        (∃ md, s2.metadata_writes = md :: ckptdemo_s1.metadata_writes ∧
          md.disk_consistent_lsn = s2.disk_consistent_lsn ∧
          md.prev_record_lsn =
            (if s2.disk_consistent_lsn = ckptdemo_s1.last_record_lsn then
              some ckptdemo_s1.prev_record_lsn
            else
              none))) :=
  ⟨_, _, rfl,
    c7_flush_prev_record_lsn demo_write_to_disk ckptdemo_s1 ckptdemo_frozen
      true _ _ rfl⟩

/-- C8: checkpoint is idempotent — after a checkpoint completes with state
`s1`, running the same checkpoint again returns `s1` unchanged (the same
historic set and `disk_consistent_lsn`) and creates no layer files. -/
theorem c8_checkpoint_idempotent (write_to_disk : WriteToDiskFn) (d : Nat)
    (rc : Bool) (s s1 : CkptTimelineState) (files1 : List CkptDiskFile)
    (h : checkpoint_internal write_to_disk d rc s = Except.ok (s1, files1)) :
    checkpoint_internal write_to_disk d rc s1 = Except.ok (s1, []) := by
  have hbc := (ckpt_loop_ok write_to_disk d rc 8 s [] s1 files1 h).2.2
  unfold checkpoint_internal
  exact ckpt_loop_break_exit write_to_disk d rc 7 s1 [] hbc

/-- Witness for C8: the first checkpoint from `ckptdemo_s1` freezes and
flushes its open layer; the second is a no-op. -/
theorem c8_checkpoint_idempotent_witness :
    ∃ s1 files1, checkpoint_internal demo_write_to_disk 0 true ckptdemo_s1 =
        Except.ok (s1, files1) ∧
      checkpoint_internal demo_write_to_disk 0 true s1 = Except.ok (s1, []) :=
  ⟨_, _, rfl,
    c8_checkpoint_idempotent demo_write_to_disk 0 true ckptdemo_s1 _ _ rfl⟩

/-- Counterexample to C6 as stated: `get_page_at_lsn` does not reject a
request with `lsn > last_record_lsn`.  On `c6demo_frame`
(`last_record_lsn = 8`) the read at LSN 100 succeeds and returns the
buffered page — the guard in the source is a `debug_assert!`, compiled out
of release builds, not an error return. -/
theorem c6_counterexample_lsn_beyond_head_not_rejected :
    c6demo_frame.last_record_lsn < 100 ∧
    get_page_at_lsn [c6demo_frame] (fun _ _ _ => none) (fun _ _ _ _ _ => [])
      demo_rel 0 100 = Except.ok [7, 7] := by
  constructor
  · decide
  · rfl

/-- C6 amended: `get_page_at_lsn(rel, rel_blknum, lsn)` rejects the request
with an error whenever `rel` is a non-blocky relish and `rel_blknum ≠ 0`;
the `lsn ≤ last_record_lsn` requirement is only a `debug_assert!` and does
not reject anything in release builds. -/
theorem c6_get_page_at_lsn_nonblocky_rejection (tl : DPTimeline)
    (cache : PageCacheFn) (request_redo : RedoFn) (rel : RelishTag)
    (rel_blknum : Nat) (lsn : Lsn) (hb : rel.is_blocky = false)
    (hblk : rel_blknum ≠ 0) :
    get_page_at_lsn tl cache request_redo rel rel_blknum lsn =
      Except.error "invalid request for block for non-blocky relish" := by
  simp [get_page_at_lsn, hb, hblk]

/-- Witness for the amended C6: block 3 of a non-blocky relish is refused. -/
theorem c6_get_page_at_lsn_nonblocky_witness :
    get_page_at_lsn [c6demo_frame] (fun _ _ _ => none) (fun _ _ _ _ _ => [])
      (.nonBlocky 0) 3 5 =
      Except.error "invalid request for block for non-blocky relish" :=
  c6_get_page_at_lsn_nonblocky_rejection [c6demo_frame] (fun _ _ _ => none)
    (fun _ _ _ _ _ => []) (.nonBlocky 0) 3 5 rfl (by decide)

/-- Layer lookup on a `single_open_frame` state reduces to the open layer's
coverage and liveness. -/
theorem single_frame_glr {f : DPFrame} {o : InMemoryLayer}
    (hf : single_open_frame f o) (seg : SegmentTag) (lsn : Lsn) :
    get_layer_for_read [f] seg lsn =
      if o.covers_seg seg ∧ o.start_lsn ≤ lsn then
        (if o.get_seg_exists seg lsn then some (LayerRef.mem o, lsn) else none)
      else
        none := by
  obtain ⟨h1, h2, h3, h4⟩ := hf
  have hnot : ¬ lsn < f.ancestor_lsn := by
    rw [h4]; exact Nat.not_lt_zero lsn
  by_cases hc : o.covers_seg seg ∧ o.start_lsn ≤ lsn
  · have hget : f.layers.get seg lsn = some (LayerRef.mem o) := by
      have hb : (o.covers_seg seg && decide (o.start_lsn ≤ lsn)) = true := by
        simp [hc.1, hc.2]
      simp [DPLayerMap.get, h1, hb]
    rw [if_pos hc, get_layer_for_read, if_neg hnot, get_layer_for_read_descend]
    simp only [hget]
    simp [LayerRef.get_seg_exists]
  · have hb : (o.covers_seg seg && decide (o.start_lsn ≤ lsn)) = false := by
      rcases Decidable.not_and_iff_or_not.mp hc with hc1 | hc1
      · simp [hc1]
      · simp [hc1]
    have hget : f.layers.get seg lsn = none := by
      simp [DPLayerMap.get, h1, h2, h3, hb, best_historic_layer]
    rw [if_neg hc, get_layer_for_read, if_neg hnot, get_layer_for_read_descend]
    simp only [hget]
    simp [get_layer_for_read_descend]

/-- Strengthen `single_frame_glr`: the only layer a lookup can return is the
open layer, its liveness at the requested LSN included. -/
theorem single_frame_glr_found {f : DPFrame} {o : InMemoryLayer}
    (hf : single_open_frame f o) {seg : SegmentTag} {lsn : Lsn}
    {layer : LayerRef} {lsn2 : Lsn}
    (h : get_layer_for_read [f] seg lsn = some (layer, lsn2)) :
    layer = LayerRef.mem o ∧ lsn2 = lsn ∧ o.covers_seg seg = true ∧
      o.start_lsn ≤ lsn ∧ o.get_seg_exists seg lsn = true := by
  rw [single_frame_glr hf] at h
  by_cases hc : o.covers_seg seg ∧ o.start_lsn ≤ lsn
  · rw [if_pos hc] at h
    by_cases he : o.get_seg_exists seg lsn
    · rw [if_pos he] at h
      simp only [Option.some_inj, Prod.mk.injEq] at h
      exact ⟨h.1.symm, h.2.symm, hc.1, hc.2, he⟩
    · rw [if_neg he] at h
      exact absurd h (by simp)
  · rw [if_neg hc] at h
    exact absurd h (by simp)

/-- The newest metadata mutation at or before `lsn` is the one at or before
`last` when every buffered mutation is at or before `last ≤ lsn`. -/
theorem latest_meta_stable (meta : List (Lsn × SegMetaOp)) (last lsn : Lsn)
    (hle : last ≤ lsn) (hall : ∀ e ∈ meta, e.1 ≤ last) :
    latest_meta_at meta lsn = latest_meta_at meta last := by
  cases meta with
  | nil => rfl
  | cons e rest =>
    have h1 : e.1 ≤ last := hall e (List.mem_cons_self e rest)
    have d1 : decide (e.1 ≤ lsn) = true := by simp [Nat.le_trans h1 hle]
    have d2 : decide (e.1 ≤ last) = true := by simp [h1]
    unfold latest_meta_at
    rw [List.find?_cons, List.find?_cons, d1, d2]

/-- Segment reads of an in-memory layer are the same at `lsn` and at `last`
when every buffered mutation of the segment is at or before `last ≤ lsn`. -/
theorem inmem_reads_stable (o : InMemoryLayer) (seg : SegmentTag)
    (last lsn : Lsn) (hle : last ≤ lsn)
    (hall : ∀ st, o.segs seg = some st → ∀ e ∈ st.meta, e.1 ≤ last) :
    o.get_seg_size seg lsn = o.get_seg_size seg last ∧
    o.get_seg_exists seg lsn = o.get_seg_exists seg last := by
  unfold InMemoryLayer.get_seg_size InMemoryLayer.get_seg_exists
  cases hs : o.segs seg with
  | none => exact ⟨rfl, rfl⟩
  | some st =>
    dsimp only
    rw [latest_meta_stable st.meta last lsn hle (hall st hs)]
    exact ⟨rfl, rfl⟩

/-- Inversion of the `get_relish_size` while-loop: a successful run found a
(possibly empty) full prefix of segments and stopped at the first non-full
one. -/
theorem grs_loop_inv (tl : DPTimeline) (rel : RelishTag) (lsn : Lsn) :
    ∀ (fuel segno segsize N : Nat),
    get_relish_size_loop tl rel lsn fuel segno segsize = Except.ok (some N) →
    (segsize ≠ RELISH_SEG_SIZE ∧ N = segno * RELISH_SEG_SIZE + segsize) ∨
    (segsize = RELISH_SEG_SIZE ∧ ∃ m, segno < m ∧
      (∀ i, segno < i → i < m → seg_read_size tl rel lsn i = RELISH_SEG_SIZE) ∧
      seg_read_size tl rel lsn m ≠ RELISH_SEG_SIZE ∧
      N = m * RELISH_SEG_SIZE + seg_read_size tl rel lsn m) := by
  intro fuel
  induction fuel with
  | zero =>
    intro segno segsize N h
    rw [get_relish_size_loop] at h
    by_cases hs : segsize = RELISH_SEG_SIZE
    · rw [if_pos hs] at h
      exact absurd h (by simp)
    · rw [if_neg hs] at h
      simp only [Except.ok.injEq, Option.some_inj] at h
      exact Or.inl ⟨hs, h.symm⟩
  | succ fuel ih =>
    intro segno segsize N h
    rw [get_relish_size_loop] at h
    by_cases hs : segsize = RELISH_SEG_SIZE
    · rw [if_pos hs] at h
      have h' : get_relish_size_loop tl rel lsn fuel (segno + 1)
          (seg_read_size tl rel lsn (segno + 1)) = Except.ok (some N) := h
      rcases ih (segno + 1) _ N h' with ⟨hne, hN⟩ | ⟨heq, m, hlt, hfull, hm, hN⟩
      · refine Or.inr ⟨hs, segno + 1, Nat.lt_succ_self segno, ?_, hne, hN⟩
        intro i h1 h2
        omega
      · refine Or.inr ⟨hs, m, by omega, ?_, hm, hN⟩
        intro i h1 h2
        by_cases hi : i = segno + 1
        · rw [hi]; exact heq
        · exact hfull i (by omega) h2
    · rw [if_neg hs] at h
      simp only [Except.ok.injEq, Option.some_inj] at h
      exact Or.inl ⟨hs, h.symm⟩

/-- Forward evaluation of the `get_relish_size` while-loop on a known full
prefix. -/
theorem grs_loop_eval (tl : DPTimeline) (rel : RelishTag) (lsn : Lsn) :
    ∀ (fuel segno m : Nat), segno ≤ m → m - segno < fuel →
    (∀ i, segno ≤ i → i < m → seg_read_size tl rel lsn i = RELISH_SEG_SIZE) →
    seg_read_size tl rel lsn m ≠ RELISH_SEG_SIZE →
    get_relish_size_loop tl rel lsn fuel segno (seg_read_size tl rel lsn segno) =
      Except.ok (some (m * RELISH_SEG_SIZE + seg_read_size tl rel lsn m)) := by
  intro fuel
  induction fuel with
  | zero =>
    intro segno m h1 h2 _ _
    omega
  | succ fuel ih =>
    intro segno m hle hfuel hfull hstop
    rw [get_relish_size_loop]
    by_cases hcur : seg_read_size tl rel lsn segno = RELISH_SEG_SIZE
    · rw [if_pos hcur]
      have hne : segno ≠ m := fun he => hstop (he ▸ hcur)
      exact ih (segno + 1) m (by omega) (by omega)
        (fun i h1 h2 => hfull i (by omega) h2) hstop
    · rw [if_neg hcur]
      have hm : segno = m := by
        by_contra hne
        exact hcur (hfull segno (Nat.le_refl _) (Nat.lt_of_le_of_ne hle hne))
      rw [hm]

/-- Inversion of a successful `get_relish_size`: segment 0 was found with a
known size, and the walk stopped at the first non-full segment. -/
theorem get_relish_size_inv (tl : DPTimeline) (rel : RelishTag) (lsn : Lsn)
    (N : Nat) (h : get_relish_size tl rel lsn = Except.ok (some N)) :
    (∃ layer0 lsn0, get_layer_for_read tl ⟨rel, 0⟩ lsn = some (layer0, lsn0) ∧
      layer0.get_seg_size ⟨rel, 0⟩ lsn0 =
        some (seg_read_size tl rel lsn 0)) ∧
    ∃ m, (∀ i, i < m → seg_read_size tl rel lsn i = RELISH_SEG_SIZE) ∧
      seg_read_size tl rel lsn m ≠ RELISH_SEG_SIZE ∧
      N = m * RELISH_SEG_SIZE + seg_read_size tl rel lsn m := by
  unfold get_relish_size at h
  cases hg : get_layer_for_read tl ⟨rel, 0⟩ lsn with
  | none => rw [hg] at h; exact absurd h (by simp)
  | some p =>
    obtain ⟨layer0, lsn0⟩ := p
    rw [hg] at h
    dsimp only at h
    cases hs : LayerRef.get_seg_size layer0 ⟨rel, 0⟩ lsn0 with
    | none => rw [hs] at h; exact absurd h (by simp)
    | some s0 =>
      rw [hs] at h
      have hr0 : seg_read_size tl rel lsn 0 = s0 := by
        simp [seg_read_size, hg, hs]
      refine ⟨⟨layer0, lsn0, rfl, by rw [hr0]; exact hs⟩, ?_⟩
      rcases grs_loop_inv tl rel lsn 4294967296 0 s0 N h with
        ⟨hne, hN⟩ | ⟨heq, m, h0, hfull, hm, hN⟩
      · refine ⟨0, fun i hi => absurd hi (Nat.not_lt_zero i), ?_, ?_⟩
        · rw [hr0]; exact hne
        · rw [hr0]; simpa using hN
      · refine ⟨m, ?_, hm, hN⟩
        intro i hi
        by_cases h0i : i = 0
        · rw [h0i, hr0]; exact heq
        · exact hfull i (by omega) hi

/-- Forward evaluation of `get_relish_size` on a known full prefix. -/
theorem get_relish_size_eval (tl : DPTimeline) (rel : RelishTag) (lsn : Lsn)
    (layer0 : LayerRef) (lsn0 : Lsn) (s0 : Nat)
    (hg : get_layer_for_read tl ⟨rel, 0⟩ lsn = some (layer0, lsn0))
    (hs : layer0.get_seg_size ⟨rel, 0⟩ lsn0 = some s0) (m : Nat)
    (hm : m < 4294967296)
    (hfull : ∀ i, i < m → seg_read_size tl rel lsn i = RELISH_SEG_SIZE)
    (hstop : seg_read_size tl rel lsn m ≠ RELISH_SEG_SIZE) :
    get_relish_size tl rel lsn =
      Except.ok (some (m * RELISH_SEG_SIZE + seg_read_size tl rel lsn m)) := by
  have hr0 : seg_read_size tl rel lsn 0 = s0 := by
    simp [seg_read_size, hg, hs]
  unfold get_relish_size
  rw [hg]
  dsimp only
  rw [hs, ← hr0]
  exact grs_loop_eval tl rel lsn 4294967296 0 m (Nat.zero_le m) (by omega)
    (fun i _ h2 => hfull i h2) hstop

/-- Segment reads of an in-memory layer depend only on that segment's
state. -/
theorem inmem_reads_congr (o2 o : InMemoryLayer) (seg : SegmentTag)
    (h : o2.segs seg = o.segs seg) (q : Lsn) :
    o2.get_seg_size seg q = o.get_seg_size seg q ∧
    o2.get_seg_exists seg q = o.get_seg_exists seg q := by
  unfold InMemoryLayer.get_seg_size InMemoryLayer.get_seg_exists
  rw [h]
  exact ⟨rfl, rfl⟩

/-- Bound hypothesis on the sizes an in-memory layer can report for a
segment. -/
def seg_sizes_bounded (o : InMemoryLayer) (seg : SegmentTag) : Prop :=
  ∀ st, o.segs seg = some st →
    ((∀ e ∈ st.meta, ∀ nn, (e.2 = SegMetaOp.segSize nn ∨
        e.2 = SegMetaOp.segCreation nn) → nn ≤ RELISH_SEG_SIZE) ∧
      (∀ nn, st.inherited_size = some nn → nn ≤ RELISH_SEG_SIZE))

/-- Under the size bound, `get_seg_size` never reports more than a full
segment. -/
theorem inmem_get_seg_size_le (o : InMemoryLayer) (seg : SegmentTag) (q : Lsn)
    (w : Nat) (hb : seg_sizes_bounded o seg)
    (h : o.get_seg_size seg q = some w) : w ≤ RELISH_SEG_SIZE := by
  unfold InMemoryLayer.get_seg_size at h
  cases hs : o.segs seg with
  | none => rw [hs] at h; exact absurd h (by simp)
  | some st =>
    rw [hs] at h
    dsimp only at h
    cases hl : latest_meta_at st.meta q with
    | none =>
      rw [hl] at h
      exact (hb st hs).2 w h
    | some e =>
      obtain ⟨elsn, eop⟩ := e
      have hmem : (elsn, eop) ∈ st.meta :=
        List.mem_of_find?_eq_some hl
      rw [hl] at h
      cases eop with
      | segSize nn =>
        simp only [Option.some_inj] at h
        exact h ▸ (hb st hs).1 (elsn, .segSize nn) hmem nn (Or.inl rfl)
      | segCreation nn =>
        simp only [Option.some_inj] at h
        exact h ▸ (hb st hs).1 (elsn, .segCreation nn) hmem nn (Or.inr rfl)
      | segDropped => exact absurd h (by simp)

/-- On a `single_open_frame` state the walk's segment reads are bounded by a
full segment. -/
theorem seg_read_size_le {f : DPFrame} {o : InMemoryLayer}
    (hf : single_open_frame f o) (rel : RelishTag) (q : Lsn) (i : Nat)
    (hb : seg_sizes_bounded o ⟨rel, i⟩) :
    seg_read_size [f] rel q i ≤ RELISH_SEG_SIZE := by
  unfold seg_read_size
  rw [single_frame_glr hf]
  by_cases hc : o.covers_seg ⟨rel, i⟩ ∧ o.start_lsn ≤ q
  · rw [if_pos hc]
    by_cases he : o.get_seg_exists ⟨rel, i⟩ q
    · rw [if_pos he]
      dsimp only [LayerRef.get_seg_size]
      cases hsz : o.get_seg_size ⟨rel, i⟩ q with
      | none => simp
      | some w => simpa using inmem_get_seg_size_le o ⟨rel, i⟩ q w hb hsz
    · rw [if_neg he]
      simp
  · rw [if_neg hc]
    simp

/-- A nonzero segment read on a `single_open_frame` state pins down the open
layer's coverage, liveness and reported size. -/
theorem seg_read_size_found {f : DPFrame} {o : InMemoryLayer}
    (hf : single_open_frame f o) {rel : RelishTag} {q : Lsn} {i v : Nat}
    (h : seg_read_size [f] rel q i = v) (hv : v ≠ 0) :
    o.covers_seg ⟨rel, i⟩ = true ∧ o.start_lsn ≤ q ∧
    o.get_seg_exists ⟨rel, i⟩ q = true ∧
    o.get_seg_size ⟨rel, i⟩ q = some v := by
  unfold seg_read_size at h
  rw [single_frame_glr hf] at h
  by_cases hc : o.covers_seg ⟨rel, i⟩ ∧ o.start_lsn ≤ q
  · rw [if_pos hc] at h
    by_cases he : o.get_seg_exists ⟨rel, i⟩ q
    · rw [if_pos he] at h
      dsimp only [LayerRef.get_seg_size] at h
      cases hsz : o.get_seg_size ⟨rel, i⟩ q with
      | none => rw [hsz] at h; exact absurd h.symm (by simpa using hv)
      | some w =>
        rw [hsz] at h
        simp only [Option.getD_some] at h
        exact ⟨hc.1, hc.2, he, by rw [h]⟩
    · rw [if_neg he] at h
      exact absurd h.symm (by simpa using hv)
  · rw [if_neg hc] at h
    exact absurd h.symm (by simpa using hv)

/-- `get_layer_for_write` on a frame whose open layer already covers the
segment returns the frame unchanged. -/
theorem get_layer_for_write_covered {f : DPFrame} {o : InMemoryLayer}
    (hopen : f.layers.open_layer = some o) {seg : SegmentTag} {lsn : Lsn}
    (halign : lsn % 8 = 0) (hlast : f.last_record_lsn < lsn)
    (hstart : ¬ lsn < o.start_lsn) (hcov : o.covers_seg seg = true) :
    get_layer_for_write f [] seg lsn = Except.ok f := by
  simp [get_layer_for_write, halign, hlast, hopen, hstart, hcov,
    Bind.bind, Except.bind, pure, Except.pure]

/-- `get_layer_for_write` on a frame whose open layer does not cover the
segment registers it, seeding the inherited size from the predecessor
lookup. -/
theorem get_layer_for_write_uncovered {f : DPFrame} {o : InMemoryLayer}
    (hopen : f.layers.open_layer = some o) {seg : SegmentTag} {lsn : Lsn}
    (halign : lsn % 8 = 0) (hlast : f.last_record_lsn < lsn)
    (hstart : ¬ lsn < o.start_lsn) (hcov : o.covers_seg seg = false) :
    ∃ old_sz, get_layer_for_write f [] seg lsn = Except.ok
      (DPFrame.mk
        (DPLayerMap.mk
          (some (InMemoryLayer.mk o.start_lsn o.end_lsn
            (fun s => if s = seg then some (SegState.mk old_sz []) else o.segs s)
            o.pages))
          f.layers.frozen_layer f.layers.historic f.layers.next_open_layer_at)
        f.last_record_lsn f.ancestor_lsn f.current_logical_size
        f.relish_size_cache) := by
  refine ⟨(match get_layer_for_read [f] seg o.start_lsn with
    | some (predecessor, plsn) => predecessor.get_seg_size seg plsn
    | none => none), ?_⟩
  simp [get_layer_for_write, halign, hlast, hopen, hstart, hcov,
    Bind.bind, Except.bind, pure, Except.pure]

/-- One `get_layer_for_write` followed by a metadata put: the step succeeds,
touches nothing but the target segment's buffered metadata (which now starts
with the new mutation), and preserves every other component of the frame. -/
theorem trunc_write_put {f1 : DPFrame} {o1 : InMemoryLayer}
    (hopen : f1.layers.open_layer = some o1) (seg : SegmentTag) (lsn : Lsn)
    (op : SegMetaOp) (halign : lsn % 8 = 0) (hlast : f1.last_record_lsn < lsn)
    (hstart : ¬ lsn < o1.start_lsn) :
    ∃ fw o2, get_layer_for_write f1 [] seg lsn = Except.ok fw ∧
      (frame_put_meta fw seg lsn op).layers.open_layer = some o2 ∧
      (frame_put_meta fw seg lsn op).layers.frozen_layer =
        f1.layers.frozen_layer ∧
      (frame_put_meta fw seg lsn op).layers.historic = f1.layers.historic ∧
      (frame_put_meta fw seg lsn op).ancestor_lsn = f1.ancestor_lsn ∧
      (frame_put_meta fw seg lsn op).last_record_lsn = f1.last_record_lsn ∧
      (frame_put_meta fw seg lsn op).current_logical_size =
        f1.current_logical_size ∧
      o2.start_lsn = o1.start_lsn ∧
      (∀ s, s ≠ seg → o2.segs s = o1.segs s) ∧
      (∃ st, o2.segs seg = some st ∧ ∃ tail, st.meta = (lsn, op) :: tail) := by
  by_cases hcov : o1.covers_seg seg
  · obtain ⟨st1, hst1⟩ := Option.isSome_iff_exists.mp
      (by simpa [InMemoryLayer.covers_seg] using hcov)
    refine ⟨f1,
      InMemoryLayer.mk o1.start_lsn o1.end_lsn
        (fun s => if s = seg then
            Option.map (fun st => SegState.mk st.inherited_size
              ((lsn, op) :: st.meta)) (o1.segs s)
          else o1.segs s)
        o1.pages,
      get_layer_for_write_covered hopen halign hlast hstart hcov,
      ?_, rfl, rfl, rfl, rfl, rfl, rfl, ?_, ?_⟩
    · simp [frame_put_meta, hopen]
    · intro s hs
      simp [if_neg hs]
    · refine ⟨SegState.mk st1.inherited_size ((lsn, op) :: st1.meta),
        ?_, st1.meta, rfl⟩
      simp [hst1]
  · obtain ⟨old_sz, hw⟩ := get_layer_for_write_uncovered hopen halign hlast
      hstart (by simpa using hcov)
    refine ⟨_,
      InMemoryLayer.mk o1.start_lsn o1.end_lsn
        (fun s => if s = seg then some (SegState.mk old_sz [(lsn, op)])
          else o1.segs s)
        o1.pages,
      hw, ?_, rfl, rfl, rfl, rfl, rfl, rfl, ?_, ?_⟩
    · simp only [frame_put_meta, Option.map_some]
      refine congrArg some ?_
      refine congrArg (fun g => InMemoryLayer.mk o1.start_lsn o1.end_lsn g
        o1.pages) ?_
      funext s
      by_cases hs : s = seg
      · simp [hs]
      · simp [hs]
    · intro s hs
      simp [if_neg hs]
    · exact ⟨SegState.mk old_sz [(lsn, op)], by simp, [], rfl⟩

/-- The drop-loop invariant only depends on the membership of the dropped
set. -/
theorem trunc_inv_mem_congr {f : DPFrame} {o : InMemoryLayer}
    {rel : RelishTag} {lsn : Lsn} {d1 d2 : List Nat} {f' : DPFrame}
    (hmem : ∀ n, n ∈ d1 ↔ n ∈ d2)
    (h : trunc_inv f o rel lsn d1 f') : trunc_inv f o rel lsn d2 f' := by
  obtain ⟨o', h1, h2, h3, h4, h5, h6, h7, h8, h9⟩ := h
  refine ⟨o', h1, h2, h3, h4, h5, h6, h7, ?_, ?_⟩
  · intro seg hseg
    exact h8 seg fun hr hin => hseg hr ((hmem _).mp hin)
  · intro n hn
    exact h9 n ((hmem n).mpr hn)

/-- The drop-loop invariant holds initially. -/
theorem trunc_inv_base {f : DPFrame} {o : InMemoryLayer}
    (hf : single_open_frame f o) (rel : RelishTag) (lsn : Lsn) :
    trunc_inv f o rel lsn [] f :=
  ⟨o, hf.hopen, hf.hfrozen, hf.hhist, rfl, rfl, rfl, rfl,
   fun _ _ => rfl, fun n hn => absurd hn (List.not_mem_nil n)⟩

/-- One drop iteration preserves the loop invariant, adding its segment to
the dropped set. -/
theorem trunc_inv_step {f : DPFrame} {o : InMemoryLayer} {rel : RelishTag}
    {lsn : Lsn} {dropped : List Nat} {f' : DPFrame}
    (hstart : o.start_lsn ≤ f.last_record_lsn)
    (halign : lsn % 8 = 0) (hlsn : f.last_record_lsn < lsn)
    (hinv : trunc_inv f o rel lsn dropped f') (n : Nat) :
    ∃ fw, get_layer_for_write f' [] ⟨rel, n⟩ lsn = Except.ok fw ∧
      trunc_inv f o rel lsn (n :: dropped)
        (frame_put_meta fw ⟨rel, n⟩ lsn SegMetaOp.segDropped) := by
  obtain ⟨o', h1, h2, h3, h4, h5, h6, h7, h8, h9⟩ := hinv
  have hlast' : f'.last_record_lsn < lsn := by rw [h5]; exact hlsn
  have hstart' : ¬ lsn < o'.start_lsn := by
    rw [h7]
    exact Nat.not_lt.mpr (Nat.le_of_lt (Nat.lt_of_le_of_lt hstart hlsn))
  obtain ⟨fw, o2, hw, p1, p2, p3, p4, p5, p6, p7, p8, p9⟩ :=
    trunc_write_put h1 ⟨rel, n⟩ lsn .segDropped halign hlast' hstart'
  refine ⟨fw, hw, o2, p1, p2.trans h2, p3.trans h3, p4.trans h4,
    p5.trans h5, p6.trans h6, p7.trans h7, ?_, ?_⟩
  · intro seg hseg
    have hne : seg ≠ ⟨rel, n⟩ := by
      intro he
      exact hseg (by rw [he]) (by rw [he]; exact List.mem_cons_self n dropped)
    rw [p8 seg hne]
    exact h8 seg fun hr hm => hseg hr (List.mem_cons_of_mem n hm)
  · intro k hk
    by_cases hkn : k = n
    · obtain ⟨st, hst, tail, htail⟩ := p9
      exact ⟨st, by rw [hkn]; exact hst, tail, htail⟩
    · have hne : (⟨rel, k⟩ : SegmentTag) ≠ ⟨rel, n⟩ := by simp [hkn]
      rw [p8 _ hne]
      exact h9 k ((List.mem_cons.mp hk).resolve_left hkn)

/-- The whole drop loop of `put_truncation` succeeds and establishes the
invariant for the full dropped set. -/
theorem trunc_drop_fold {f : DPFrame} {o : InMemoryLayer} {rel : RelishTag}
    {lsn : Lsn} (hstart : o.start_lsn ≤ f.last_record_lsn)
    (halign : lsn % 8 = 0) (hlsn : f.last_record_lsn < lsn) :
    ∀ (segnos dropped : List Nat) (f' : DPFrame),
    trunc_inv f o rel lsn dropped f' →
    ∃ f'', List.foldlM
        (fun f remove_segno => do
          let seg : SegmentTag := ⟨rel, remove_segno⟩
          let f ← get_layer_for_write f [] seg lsn
          pure (frame_put_meta f seg lsn SegMetaOp.segDropped)) f' segnos =
      Except.ok f'' ∧ trunc_inv f o rel lsn (segnos ++ dropped) f'' := by
  intro segnos
  induction segnos with
  | nil =>
    intro dropped f' hinv
    exact ⟨f', by simp [pure, Except.pure], by simpa using hinv⟩
  | cons n rest ih =>
    intro dropped f' hinv
    obtain ⟨fw, hw, hinv'⟩ := trunc_inv_step hstart halign hlsn hinv n
    obtain ⟨f'', hfold, hinv''⟩ := ih (n :: dropped) _ hinv'
    refine ⟨f'', ?_, ?_⟩
    · rw [List.foldlM_cons]
      simp only [hw, Bind.bind, Except.bind, pure, Except.pure]
      exact hfold
    · refine trunc_inv_mem_congr ?_ hinv''
      intro k
      simp only [List.mem_append, List.mem_cons]
      tauto

/-- A segment untouched by the truncation reads at the new LSN exactly what
it read at `last_record_lsn` before. -/
theorem seg_read_untouched {f2 f : DPFrame} {o2 o : InMemoryLayer}
    (hf2 : single_open_frame f2 o2) (hf : single_open_frame f o)
    {rel : RelishTag} {i : Nat}
    (hsegs : o2.segs ⟨rel, i⟩ = o.segs ⟨rel, i⟩)
    (hstart2 : o2.start_lsn = o.start_lsn)
    (hmeta_le : ∀ st, o.segs ⟨rel, i⟩ = some st →
      ∀ e ∈ st.meta, e.1 ≤ f.last_record_lsn)
    (hstart : o.start_lsn ≤ f.last_record_lsn)
    {lsn : Lsn} (hlsn : f.last_record_lsn ≤ lsn) :
    seg_read_size [f2] rel lsn i = seg_read_size [f] rel f.last_record_lsn i := by
  unfold seg_read_size
  rw [single_frame_glr hf2, single_frame_glr hf]
  have hcov : o2.covers_seg ⟨rel, i⟩ = o.covers_seg ⟨rel, i⟩ := by
    simp [InMemoryLayer.covers_seg, hsegs]
  by_cases hcovb : o.covers_seg ⟨rel, i⟩ = true
  · have hc2 : o2.covers_seg ⟨rel, i⟩ = true ∧ o2.start_lsn ≤ lsn :=
      ⟨by rw [hcov]; exact hcovb,
       by rw [hstart2]; exact Nat.le_trans hstart hlsn⟩
    have hc1 : o.covers_seg ⟨rel, i⟩ = true ∧
        o.start_lsn ≤ f.last_record_lsn := ⟨hcovb, hstart⟩
    rw [if_pos hc2, if_pos hc1]
    have hcongr := inmem_reads_congr o2 o ⟨rel, i⟩ hsegs lsn
    have hstab := inmem_reads_stable o ⟨rel, i⟩ f.last_record_lsn lsn hlsn
      hmeta_le
    have hex : o2.get_seg_exists ⟨rel, i⟩ lsn =
        o.get_seg_exists ⟨rel, i⟩ f.last_record_lsn := hcongr.2.trans hstab.2
    have hsz : o2.get_seg_size ⟨rel, i⟩ lsn =
        o.get_seg_size ⟨rel, i⟩ f.last_record_lsn := hcongr.1.trans hstab.1
    by_cases he : o.get_seg_exists ⟨rel, i⟩ f.last_record_lsn = true
    · rw [if_pos (show o2.get_seg_exists ⟨rel, i⟩ lsn = true by
          rw [hex]; exact he), if_pos he]
      dsimp only [LayerRef.get_seg_size]
      rw [hsz]
    · rw [if_neg (show ¬ o2.get_seg_exists ⟨rel, i⟩ lsn = true by
          rw [hex]; exact he), if_neg he]
  · have hc2ne : ¬(o2.covers_seg ⟨rel, i⟩ = true ∧ o2.start_lsn ≤ lsn) :=
      fun hc => hcovb (by rw [← hcov]; exact hc.1)
    have hc1ne : ¬(o.covers_seg ⟨rel, i⟩ = true ∧
        o.start_lsn ≤ f.last_record_lsn) := fun hc => hcovb hc.1
    rw [if_neg hc2ne, if_neg hc1ne]

/-- A segment whose newest buffered mutation is the drop marker at `lsn` is
invisible to layer lookup at `lsn`. -/
theorem glr_after_dropped {f2 : DPFrame} {o2 : InMemoryLayer}
    (hf2 : single_open_frame f2 o2) {rel : RelishTag} {i : Nat}
    {st : SegState} (hseg : o2.segs ⟨rel, i⟩ = some st)
    {lsn : Lsn} {tail : List (Lsn × SegMetaOp)}
    (hmeta : st.meta = (lsn, SegMetaOp.segDropped) :: tail) :
    get_layer_for_read [f2] ⟨rel, i⟩ lsn = none := by
  rw [single_frame_glr hf2]
  have hd : decide (lsn ≤ lsn) = true := by simp
  have hlatest : latest_meta_at st.meta lsn = some (lsn, .segDropped) := by
    unfold latest_meta_at
    rw [hmeta, List.find?_cons, hd]
  have hex : o2.get_seg_exists ⟨rel, i⟩ lsn = false := by
    unfold InMemoryLayer.get_seg_exists
    rw [hseg]
    dsimp only
    rw [hlatest]
  by_cases hc : o2.covers_seg ⟨rel, i⟩ = true ∧ o2.start_lsn ≤ lsn
  · rw [if_pos hc, hex]
    simp
  · rw [if_neg hc]

/-- The walk's read of a segment dropped at `lsn` is 0. -/
theorem seg_read_after_dropped {f2 : DPFrame} {o2 : InMemoryLayer}
    (hf2 : single_open_frame f2 o2) {rel : RelishTag} {i : Nat}
    {st : SegState} (hseg : o2.segs ⟨rel, i⟩ = some st)
    {lsn : Lsn} {tail : List (Lsn × SegMetaOp)}
    (hmeta : st.meta = (lsn, SegMetaOp.segDropped) :: tail) :
    seg_read_size [f2] rel lsn i = 0 := by
  unfold seg_read_size
  rw [glr_after_dropped hf2 hseg hmeta]

/-- A segment whose newest buffered mutation is an explicit size at `lsn` is
found by lookup and reports that size. -/
theorem glr_after_size_put {f2 : DPFrame} {o2 : InMemoryLayer}
    (hf2 : single_open_frame f2 o2) {rel : RelishTag} {i : Nat}
    {st : SegState} (hseg : o2.segs ⟨rel, i⟩ = some st)
    {lsn : Lsn} {r : Nat} {tail : List (Lsn × SegMetaOp)}
    (hmeta : st.meta = (lsn, SegMetaOp.segSize r) :: tail)
    (hstart2 : o2.start_lsn ≤ lsn) :
    get_layer_for_read [f2] ⟨rel, i⟩ lsn = some (LayerRef.mem o2, lsn) ∧
    o2.get_seg_size ⟨rel, i⟩ lsn = some r := by
  have hd : decide (lsn ≤ lsn) = true := by simp
  have hlatest : latest_meta_at st.meta lsn = some (lsn, .segSize r) := by
    unfold latest_meta_at
    rw [hmeta, List.find?_cons, hd]
  have hex : o2.get_seg_exists ⟨rel, i⟩ lsn = true := by
    unfold InMemoryLayer.get_seg_exists
    rw [hseg]
    dsimp only
    rw [hlatest]
  have hsz : o2.get_seg_size ⟨rel, i⟩ lsn = some r := by
    unfold InMemoryLayer.get_seg_size
    rw [hseg]
    dsimp only
    rw [hlatest]
  have hcov : o2.covers_seg ⟨rel, i⟩ = true := by
    simp [InMemoryLayer.covers_seg, hseg]
  rw [single_frame_glr hf2, if_pos ⟨hcov, hstart2⟩, if_pos hex]
  exact ⟨rfl, hsz⟩

/-- The walk's read of a segment truncated to `r` at `lsn` is `r`. -/
theorem seg_read_after_size_put {f2 : DPFrame} {o2 : InMemoryLayer}
    (hf2 : single_open_frame f2 o2) {rel : RelishTag} {i : Nat}
    {st : SegState} (hseg : o2.segs ⟨rel, i⟩ = some st)
    {lsn : Lsn} {r : Nat} {tail : List (Lsn × SegMetaOp)}
    (hmeta : st.meta = (lsn, SegMetaOp.segSize r) :: tail)
    (hstart2 : o2.start_lsn ≤ lsn) :
    seg_read_size [f2] rel lsn i = r := by
  obtain ⟨hg, hsz⟩ := glr_after_size_put hf2 hseg hmeta hstart2
  unfold seg_read_size
  rw [hg]
  dsimp only [LayerRef.get_seg_size]
  rw [hsz]
  rfl

/-- Reduction of a successful `Except` bind. -/
theorem exceptBind_ok_eq {ε α β : Type} (a : α) (k : α → Except ε β) :
    (Except.ok a >>= k) = k a := rfl

/-- Unfolding of `put_truncation` past its validation and old-size lookup:
what remains is the drop loop, the final segment truncation, the size-cache
update and the logical-size decrease. -/
theorem put_truncation_unfold {f : DPFrame} {rel : RelishTag} {lsn : Lsn}
    {relsize oldsize : Nat}
    (hblocky : rel.is_blocky = true) (halign : lsn % 8 = 0)
    (hold : get_relish_size [f] rel f.last_record_lsn =
      Except.ok (some oldsize))
    (hgt : ¬ oldsize ≤ relsize) :
    put_truncation f [] rel lsn relsize =
      (List.foldlM
        (fun f remove_segno => do
          let seg : SegmentTag := ⟨rel, remove_segno⟩
          let f ← get_layer_for_write f [] seg lsn
          pure (frame_put_meta f seg lsn SegMetaOp.segDropped))
        f
        ((List.range ((oldsize - 1) / RELISH_SEG_SIZE -
            (if relsize = 0 then 0 else (relsize - 1) / RELISH_SEG_SIZE))).map
          (fun i => (if relsize = 0 then 0
            else (relsize - 1) / RELISH_SEG_SIZE) + 1 + i))) >>= (fun f =>
      (if relsize = 0 ∨ relsize % RELISH_SEG_SIZE ≠ 0 then do
          let seg : SegmentTag := ⟨rel,
            (if relsize = 0 then 0 else (relsize - 1) / RELISH_SEG_SIZE)⟩
          let f ← get_layer_for_write f [] seg lsn
          pure (frame_put_meta f seg lsn
            (SegMetaOp.segSize (relsize % RELISH_SEG_SIZE)))
        else pure f) >>= (fun f =>
      pure (decrease_current_logical_size
        { f with relish_size_cache :=
            relish_size_cache_insert f.relish_size_cache rel relsize }
        (((oldsize - relsize) * BLCKSZ) % 4294967296)))) := by
  simp [put_truncation, hblocky, halign, hold, hgt, Bind.bind, Except.bind]
  split
  · rfl
  · by_cases hc : relsize = 0 ∨ ¬relsize % RELISH_SEG_SIZE = 0
    · rw [if_pos hc, if_pos hc]
      split <;> rfl
    · rw [if_neg hc, if_neg hc]

/-- Reduction of a pure `Except` bind. -/
theorem exceptPureBind_eq {ε α β : Type} (a : α) (k : α → Except ε β) :
    ((pure a : Except ε α) >>= k) = k a := rfl

/-- The size-cache update and the logical-size decrease leave the layer
state untouched, so a `single_open_frame` configuration survives them. -/
theorem single_open_frame_wrap {f3 : DPFrame} {o3 : InMemoryLayer}
    (h1 : f3.layers.open_layer = some o3)
    (h2 : f3.layers.frozen_layer = none)
    (h3 : f3.layers.historic = [])
    (h4 : f3.ancestor_lsn = 0)
    (c : List (RelishTag × Nat)) (d : Nat) :
    single_open_frame
      (decrease_current_logical_size { f3 with relish_size_cache := c } d)
      o3 :=
  ⟨h1, h2, h3, h4⟩

/-- Forward run of `get_relish_size` with the walk's reads given exactly:
a full prefix of `m2` segments and a stopping read `r`, summing to the
requested size. -/
theorem grs_eval_exact {g : DPFrame} {rel : RelishTag} {lsn : Lsn}
    {relsize m2 r : Nat}
    (hfirst : ∃ L l0 s0, get_layer_for_read [g] ⟨rel, 0⟩ lsn = some (L, l0) ∧
      LayerRef.get_seg_size L ⟨rel, 0⟩ l0 = some s0)
    (hm2 : m2 < 4294967296)
    (hfull : ∀ i, i < m2 → seg_read_size [g] rel lsn i = RELISH_SEG_SIZE)
    (hstop : seg_read_size [g] rel lsn m2 = r)
    (hval : r ≠ RELISH_SEG_SIZE)
    (hsum : m2 * RELISH_SEG_SIZE + r = relsize) :
    get_relish_size [g] rel lsn = Except.ok (some relsize) := by
  obtain ⟨L, l0, s0, hg, hs⟩ := hfirst
  have h := get_relish_size_eval [g] rel lsn L l0 s0 hg hs m2 hm2 hfull
    (by rw [hstop]; exact hval)
  rw [h, hstop, hsum]

/-- A pure value in the `Except` monad is an `ok`. -/
theorem exceptPure_eq {ε α : Type} (a : α) :
    (pure a : Except ε α) = Except.ok a := rfl

/-- After the truncation wrote an explicit size `r` for segment `m2` and
left segments `0..m2-1` untouched (and full), `get_relish_size` at the
truncation LSN returns `m2` full segments plus `r`. -/
theorem trunc_final_reads_put {f f3 : DPFrame} {o o3 : InMemoryLayer}
    (hf : single_open_frame f o)
    (h1 : f3.layers.open_layer = some o3)
    (h2 : f3.layers.frozen_layer = none)
    (h3 : f3.layers.historic = [])
    (h4 : f3.ancestor_lsn = 0)
    (c : List (RelishTag × Nat)) (d : Nat)
    {rel : RelishTag} {lsn : Lsn}
    (hstart2 : o3.start_lsn = o.start_lsn)
    (hstart : o.start_lsn ≤ f.last_record_lsn)
    (hlsn : f.last_record_lsn < lsn)
    (hmeta_le : ∀ seg st, o.segs seg = some st → ∀ e ∈ st.meta,
      e.1 ≤ f.last_record_lsn)
    (m2 relsize r : Nat) (hm2 : m2 < 4294967296)
    (hsegs : ∀ i, i < m2 → o3.segs ⟨rel, i⟩ = o.segs ⟨rel, i⟩)
    (hreads : ∀ i, i < m2 → seg_read_size [f] rel f.last_record_lsn i =
      RELISH_SEG_SIZE)
    (hstopseg : ∃ st, o3.segs ⟨rel, m2⟩ = some st ∧ ∃ tail,
      st.meta = (lsn, SegMetaOp.segSize r) :: tail)
    (hval : r ≠ RELISH_SEG_SIZE)
    (hsum : m2 * RELISH_SEG_SIZE + r = relsize) :
    get_relish_size
      [decrease_current_logical_size { f3 with relish_size_cache := c } d]
      rel lsn = Except.ok (some relsize) := by
  have hf2 := single_open_frame_wrap h1 h2 h3 h4 c d
  obtain ⟨st, hst, tail, htail⟩ := hstopseg
  have hstart2' : o3.start_lsn ≤ lsn := by
    rw [hstart2]
    exact Nat.le_trans hstart (Nat.le_of_lt hlsn)
  have hfull2 : ∀ i, i < m2 →
      seg_read_size [decrease_current_logical_size
        { f3 with relish_size_cache := c } d] rel lsn i = RELISH_SEG_SIZE := by
    intro i hi
    rw [seg_read_untouched hf2 hf (hsegs i hi) hstart2
      (fun st hs => hmeta_le ⟨rel, i⟩ st hs) hstart (Nat.le_of_lt hlsn)]
    exact hreads i hi
  have hstopread := seg_read_after_size_put hf2 hst htail hstart2'
  have hfirst : ∃ L l0 s0, get_layer_for_read
      [decrease_current_logical_size { f3 with relish_size_cache := c } d]
      ⟨rel, 0⟩ lsn = some (L, l0) ∧
      LayerRef.get_seg_size L ⟨rel, 0⟩ l0 = some s0 := by
    by_cases hm0 : m2 = 0
    · subst hm0
      have hput := glr_after_size_put hf2 hst htail hstart2'
      exact ⟨LayerRef.mem o3, lsn, r, hput.1, hput.2⟩
    · have h0 := hfull2 0 (Nat.pos_of_ne_zero hm0)
      obtain ⟨hcov, hst0, hex, hsz⟩ := seg_read_size_found hf2 h0 (by decide)
      refine ⟨LayerRef.mem o3, lsn, RELISH_SEG_SIZE, ?_, hsz⟩
      rw [single_frame_glr hf2, if_pos ⟨hcov, hst0⟩, if_pos hex]
  exact grs_eval_exact hfirst hm2 hfull2 hstopread hval hsum

/-- After the truncation dropped segment `m2` (and left `0..m2-1`
untouched and full), `get_relish_size` at the truncation LSN stops there
and returns `m2` full segments. -/
theorem trunc_final_reads_drop {f f3 : DPFrame} {o o3 : InMemoryLayer}
    (hf : single_open_frame f o)
    (h1 : f3.layers.open_layer = some o3)
    (h2 : f3.layers.frozen_layer = none)
    (h3 : f3.layers.historic = [])
    (h4 : f3.ancestor_lsn = 0)
    (c : List (RelishTag × Nat)) (d : Nat)
    {rel : RelishTag} {lsn : Lsn}
    (hstart2 : o3.start_lsn = o.start_lsn)
    (hstart : o.start_lsn ≤ f.last_record_lsn)
    (hlsn : f.last_record_lsn < lsn)
    (hmeta_le : ∀ seg st, o.segs seg = some st → ∀ e ∈ st.meta,
      e.1 ≤ f.last_record_lsn)
    (m2 relsize : Nat) (hm2 : m2 < 4294967296) (hm2pos : 0 < m2)
    (hsegs : ∀ i, i < m2 → o3.segs ⟨rel, i⟩ = o.segs ⟨rel, i⟩)
    (hreads : ∀ i, i < m2 → seg_read_size [f] rel f.last_record_lsn i =
      RELISH_SEG_SIZE)
    (hstopseg : ∃ st, o3.segs ⟨rel, m2⟩ = some st ∧ ∃ tail,
      st.meta = (lsn, SegMetaOp.segDropped) :: tail)
    (hsum : m2 * RELISH_SEG_SIZE = relsize) :
    get_relish_size
      [decrease_current_logical_size { f3 with relish_size_cache := c } d]
      rel lsn = Except.ok (some relsize) := by
  have hf2 := single_open_frame_wrap h1 h2 h3 h4 c d
  obtain ⟨st, hst, tail, htail⟩ := hstopseg
  have hfull2 : ∀ i, i < m2 →
      seg_read_size [decrease_current_logical_size
        { f3 with relish_size_cache := c } d] rel lsn i = RELISH_SEG_SIZE := by
    intro i hi
    rw [seg_read_untouched hf2 hf (hsegs i hi) hstart2
      (fun st hs => hmeta_le ⟨rel, i⟩ st hs) hstart (Nat.le_of_lt hlsn)]
    exact hreads i hi
  have hstopread := seg_read_after_dropped hf2 hst htail
  have hfirst : ∃ L l0 s0, get_layer_for_read
      [decrease_current_logical_size { f3 with relish_size_cache := c } d]
      ⟨rel, 0⟩ lsn = some (L, l0) ∧
      LayerRef.get_seg_size L ⟨rel, 0⟩ l0 = some s0 := by
    have h0 := hfull2 0 hm2pos
    obtain ⟨hcov, hst0, hex, hsz⟩ := seg_read_size_found hf2 h0 (by decide)
    refine ⟨LayerRef.mem o3, lsn, RELISH_SEG_SIZE, ?_, hsz⟩
    rw [single_frame_glr hf2, if_pos ⟨hcov, hst0⟩, if_pos hex]
  refine grs_eval_exact hfirst hm2 hfull2 hstopread (by decide) ?_
  simpa using hsum

/-- C9 (amended): on a timeline whose layer state is a single open
in-memory layer, for a blocky relish whose size at `last_record_lsn` is
`oldsize`, `put_truncation(rel, lsn, relsize)` with `relsize < oldsize` (at
an aligned `lsn > last_record_lsn`) succeeds, makes `get_relish_size(rel,
lsn)` return `relsize`, and decreases `current_logical_size` by exactly
`(oldsize - relsize) * BLCKSZ` — provided `(oldsize - relsize) * BLCKSZ`
fits in a `u32`: the source computes that product in `u32`, so a larger
difference wraps (see the counterexample). -/
theorem c9_put_truncation_shrinks (f : DPFrame) (o : InMemoryLayer)
    (rel : RelishTag) (lsn : Lsn) (oldsize relsize : Nat)
    (hf : single_open_frame f o)
    (hblocky : rel.is_blocky = true)
    (hmeta_le : ∀ seg st, o.segs seg = some st → ∀ e ∈ st.meta,
      e.1 ≤ f.last_record_lsn)
    (hmeta_sz : ∀ seg, seg_sizes_bounded o seg)
    (hold : get_relish_size [f] rel f.last_record_lsn =
      Except.ok (some oldsize))
    (hlt : relsize < oldsize)
    (halign : lsn % 8 = 0)
    (hlsn : f.last_record_lsn < lsn)
    (hu32 : oldsize < 4294967296)
    (hoflow : (oldsize - relsize) * BLCKSZ < 4294967296)
    (hcls_lb : (oldsize - relsize) * BLCKSZ ≤ f.current_logical_size)
    (hcls_ub : f.current_logical_size < 18446744073709551616) :
    ∃ f2, put_truncation f [] rel lsn relsize = Except.ok f2 ∧
      get_relish_size [f2] rel lsn = Except.ok (some relsize) ∧
      f2.current_logical_size =
        f.current_logical_size - (oldsize - relsize) * BLCKSZ := by
  obtain ⟨⟨layer0, lsn0, hg0, hs0⟩, m, hfull, hstop0, hN⟩ :=
    get_relish_size_inv [f] rel f.last_record_lsn oldsize hold
  obtain ⟨hl0, hl0b, hcov0, hstart, hex0⟩ := single_frame_glr_found hf hg0
  have hSeg : RELISH_SEG_SIZE = 1280 := rfl
  have hB : BLCKSZ = 8192 := rfl
  have hsmle := seg_read_size_le hf rel f.last_record_lsn m (hmeta_sz _)
  rw [hSeg] at hN hsmle hstop0
  rw [hB] at hoflow hcls_lb
  have hm2le : (relsize - 1) / 1280 ≤ m := by omega
  have hmlt : m < 4294967296 := by omega
  rw [put_truncation_unfold hblocky halign hold (by omega)]
  simp only [RELISH_SEG_SIZE, BLCKSZ]
  by_cases hr0 : relsize = 0
  · subst hr0
    rw [if_pos (show (0:Nat) = 0 from rfl)]
    obtain ⟨fA, hfoldA, hinvA0⟩ := trunc_drop_fold hstart halign hlsn
      ((List.range ((oldsize - 1) / 1280 - 0)).map (fun i => 0 + 1 + i)) [] f
      (trunc_inv_base hf rel lsn)
    rw [List.append_nil] at hinvA0
    obtain ⟨oA, a1, a2, a3, a4, a5, a6, a7, a8, a9⟩ := hinvA0
    have hlastA : fA.last_record_lsn < lsn := by rw [a5]; exact hlsn
    have hstartA : ¬ lsn < oA.start_lsn := by
      rw [a7]
      exact Nat.not_lt.mpr (Nat.le_of_lt (Nat.lt_of_le_of_lt hstart hlsn))
    obtain ⟨fw, o3, hw, p1, p2, p3, p4, p5, p6, p7, p8, p9⟩ :=
      trunc_write_put a1 ⟨rel, 0⟩ lsn (SegMetaOp.segSize (0 % 1280)) halign
        hlastA hstartA
    rw [hfoldA]
    simp only [exceptBind_ok_eq]
    rw [if_pos (show True ∨ (0:Nat) % 1280 ≠ 0 from Or.inl trivial)]
    rw [hw]
    simp only [exceptBind_ok_eq, exceptPureBind_eq, exceptPure_eq]
    refine ⟨_, rfl, ?_, ?_⟩
    · exact trunc_final_reads_put hf p1 (p2.trans a2) (p3.trans a3)
        (p4.trans (a4.trans hf.hanc)) _ _ (p7.trans a7) hstart hlsn hmeta_le
        0 0 (0 % 1280) (by omega)
        (fun i hi => absurd hi (Nat.not_lt_zero i))
        (fun i hi => absurd hi (Nat.not_lt_zero i)) p9 (by decide) (by decide)
    · simp only [decrease_current_logical_size]
      rw [p6, a6]
      omega
  · rw [if_neg hr0]
    have hmem : ∀ n : Nat, n ∈ (List.range ((oldsize - 1) / 1280 -
        (relsize - 1) / 1280)).map (fun i => (relsize - 1) / 1280 + 1 + i) ↔
        ((relsize - 1) / 1280 + 1 ≤ n ∧ n ≤ (oldsize - 1) / 1280) := by
      intro n
      simp only [List.mem_map, List.mem_range]
      constructor
      · rintro ⟨i, hi, rfl⟩
        omega
      · rintro ⟨hn1, hn2⟩
        exact ⟨n - ((relsize - 1) / 1280 + 1), by omega, by omega⟩
    obtain ⟨fA, hfoldA, hinvA0⟩ := trunc_drop_fold hstart halign hlsn
      ((List.range ((oldsize - 1) / 1280 - (relsize - 1) / 1280)).map
        (fun i => (relsize - 1) / 1280 + 1 + i)) [] f
      (trunc_inv_base hf rel lsn)
    rw [List.append_nil] at hinvA0
    obtain ⟨oA, a1, a2, a3, a4, a5, a6, a7, a8, a9⟩ := hinvA0
    rw [hfoldA]
    simp only [exceptBind_ok_eq]
    by_cases hmod : relsize % 1280 = 0
    · rw [if_neg (show ¬(relsize = 0 ∨ ¬relsize % 1280 = 0) from
        fun h => h.elim hr0 (fun h2 => h2 hmod))]
      simp only [exceptPureBind_eq, exceptPure_eq]
      refine ⟨_, rfl, ?_, ?_⟩
      · refine trunc_final_reads_drop hf a1 a2 a3 (a4.trans hf.hanc) _ _ a7
          hstart hlsn hmeta_le ((relsize - 1) / 1280 + 1) relsize
          (by omega) (by omega) ?_ ?_ ?_ (by rw [hSeg]; omega)
        · intro i hi
          refine a8 _ (fun _ hin => ?_)
          have h : (relsize - 1) / 1280 + 1 ≤ i ∧ i ≤ (oldsize - 1) / 1280 :=
            (hmem _).mp hin
          omega
        · intro i hi
          exact hfull i (by omega)
        · exact a9 ((relsize - 1) / 1280 + 1)
            ((hmem _).mpr ⟨Nat.le_refl _, by omega⟩)
      · simp only [decrease_current_logical_size]
        rw [a6]
        omega
    · rw [if_pos (show relsize = 0 ∨ ¬relsize % 1280 = 0 from Or.inr hmod)]
      have hlastA : fA.last_record_lsn < lsn := by rw [a5]; exact hlsn
      have hstartA : ¬ lsn < oA.start_lsn := by
        rw [a7]
        exact Nat.not_lt.mpr (Nat.le_of_lt (Nat.lt_of_le_of_lt hstart hlsn))
      obtain ⟨fw, o3, hw, p1, p2, p3, p4, p5, p6, p7, p8, p9⟩ :=
        trunc_write_put a1 ⟨rel, (relsize - 1) / 1280⟩ lsn
          (SegMetaOp.segSize (relsize % 1280)) halign hlastA hstartA
      rw [hw]
      simp only [exceptBind_ok_eq, exceptPureBind_eq, exceptPure_eq]
      refine ⟨_, rfl, ?_, ?_⟩
      · refine trunc_final_reads_put hf p1 (p2.trans a2) (p3.trans a3)
          (p4.trans (a4.trans hf.hanc)) _ _ (p7.trans a7) hstart hlsn hmeta_le
          ((relsize - 1) / 1280) relsize (relsize % 1280)
          (by omega) ?_ ?_ p9 (by rw [hSeg]; omega) (by rw [hSeg]; omega)
        · intro i hi
          have hne : (⟨rel, i⟩ : SegmentTag) ≠ ⟨rel, (relsize - 1) / 1280⟩ := by
            intro h
            injection h with h1 h2
            omega
          rw [p8 _ hne]
          refine a8 _ (fun _ hin => ?_)
          have h : (relsize - 1) / 1280 + 1 ≤ i ∧ i ≤ (oldsize - 1) / 1280 :=
            (hmem _).mp hin
          omega
        · intro i hi
          exact hfull i (by omega)
      · simp only [decrease_current_logical_size]
        rw [p6, a6]
        omega

/-- Witness for the amended C9: truncating the 100-block demo relation to 40
blocks at LSN 16 succeeds, reads back size 40, and shrinks
`current_logical_size` by exactly `60 * BLCKSZ`. -/
theorem c9_put_truncation_shrinks_witness :
    ∃ f2, put_truncation truncdemo_frame [] demo_rel 16 40 = Except.ok f2 ∧
      get_relish_size [f2] demo_rel 16 = Except.ok (some 40) ∧
      f2.current_logical_size =
        truncdemo_frame.current_logical_size - (100 - 40) * BLCKSZ :=
  c9_put_truncation_shrinks truncdemo_frame truncdemo_open demo_rel 16 100 40
    ⟨rfl, rfl, rfl, rfl⟩ rfl
    (by
      intro seg st h e he
      simp only [truncdemo_open] at h
      split at h
      · injection h with h2
        subst h2
        simp only [List.mem_singleton] at he
        subst he
        exact Nat.le_refl 8
      · exact absurd h (by simp))
    (by
      intro seg st h
      simp only [truncdemo_open] at h
      split at h
      · injection h with h2
        subst h2
        refine ⟨?_, ?_⟩
        · intro e he nn hnn
          simp only [List.mem_singleton] at he
          subst he
          rcases hnn with h3 | h3
          · exact SegMetaOp.noConfusion h3
          · cases h3
            decide
        · intro nn hnn
          exact absurd hnn (by simp)
      · exact absurd h (by simp))
    rfl (by decide) (by decide) (by decide) (by decide) (by decide)
    (by decide) (by decide)

set_option maxRecDepth 100000 in
set_option maxHeartbeats 4000000 in
/-- C9 counterexample: truncating a 410-segment relation (524800 blocks,
`current_logical_size = 2^33`) to 512 blocks succeeds and the relish size
reads back 512, but `current_logical_size` stays `2^33` instead of
decreasing by `(524800 - 512) * BLCKSZ`: the source computes
`(old_size - new_size) * BLCKSZ as u32`, and `524288 * 8192 = 2^32` wraps
to 0. -/
theorem c9_counterexample_logical_size_not_decreased :
    get_relish_size [bigdemo_frame] bigdemo_rel
        bigdemo_frame.last_record_lsn = Except.ok (some 524800) ∧
    (512 : Nat) < 524800 ∧
    bigdemo_frame.current_logical_size = 8589934592 ∧
    (match put_truncation bigdemo_frame [] bigdemo_rel 16 512 with
      | Except.ok f2 => some f2.current_logical_size
      | Except.error _ => none) = some 8589934592 ∧
    (match put_truncation bigdemo_frame [] bigdemo_rel 16 512 with
      | Except.ok f2 => get_relish_size [f2] bigdemo_rel 16
      | Except.error e => Except.error e) = Except.ok (some 512) ∧
    (8589934592 : Nat) ≠ 8589934592 - (524800 - 512) * BLCKSZ :=
  ⟨rfl, by decide, rfl, rfl, rfl, by decide⟩
